import Mathlib

/-!
# RPG Maker MV plugins: target selection control and line of sight

A shallow embedding of three plugins of the repository:

* `js/plugins/YEP_X_SelectionControl.js` (namespace `SelectionControl`): the notetag
  parser and the predicates that decide which battlers an action may select;
* `js/plugins/QuasiSight.js` (namespace `QuasiSight`): shadow casting and the
  reshape-on-move cache of a character with sight;
* `js/plugins/YEP_X_ExtMesPack1.js` (namespace `ExtMesPack`): the grouping of digits
  behind the text code `\dg[x]`.

JavaScript strings are lists of characters, JavaScript objects used as dictionaries are
association lists, and the services of the host engine the plugins call (row formation,
evaluation of notetag code, trigonometry) are fields of an environment record.
-/

set_option autoImplicit false

namespace SelectionControl

/-! ## Text -/

/-- A JavaScript string. -/
abbrev Str := List Char

/-- `String.prototype.toUpperCase`, on the ASCII letters. -/
def toUpperCase (s : Str) : Str := s.map Char.toUpper

/-- The class `\d` of a regular expression. -/
def isDigit (c : Char) : Bool := decide (48 ≤ c.toNat ∧ c.toNat ≤ 57)

/-- Line terminators: the characters `.` does not match. -/
def isLineTerminator (c : Char) : Bool :=
  c.toNat == 10 || c.toNat == 13 || c.toNat == 8232 || c.toNat == 8233

/-- White space and line terminators: the characters `trim` strips. -/
def isWhiteSpace (c : Char) : Bool :=
  (decide (9 ≤ c.toNat ∧ c.toNat ≤ 13)) || c.toNat == 32 || c.toNat == 160 ||
  c.toNat == 5760 || (decide (8192 ≤ c.toNat ∧ c.toNat ≤ 8202)) || c.toNat == 8232 ||
  c.toNat == 8233 || c.toNat == 8239 || c.toNat == 8287 || c.toNat == 12288 ||
  c.toNat == 65279

/-- `String.prototype.trim`. -/
def trim (s : Str) : Str :=
  ((s.dropWhile isWhiteSpace).reverse.dropWhile isWhiteSpace).reverse

/-- A literal of a pattern with flag `i` matched at the start of `s`: what follows it. -/
def litCI : Str → Str → Option Str
  | [], s => some s
  | _ :: _, [] => none
  | p :: ps, c :: cs => if c.toUpper = p.toUpper then litCI ps cs else none

/-- `s.match(/LITERAL/i)` as a truth value: the literal occurs somewhere in `s`. -/
def testCI (pat : Str) : Str → Bool
  | [] => (litCI pat []).isSome
  | c :: cs => (litCI pat (c :: cs)).isSome || testCI pat cs

/-- The group `(.*)` at the end of a pattern: everything up to the next line terminator. -/
def dotStar (s : Str) : Str := s.takeWhile fun c => !isLineTerminator c

/-- `RegExp.$1` of `s.match(/LITERAL(.*)/i)`, at the leftmost occurrence of the literal. -/
def captureRest (pat : Str) : Str → Option Str
  | [] => (litCI pat []).map dotStar
  | c :: cs =>
    match litCI pat (c :: cs) with
    | some r => some (dotStar r)
    | none => captureRest pat cs

/-- `RegExp.$1` of `s.match(/(\d+)/i)`: the leftmost maximal run of digits. -/
def firstDigits : Str → Option Str
  | [] => none
  | c :: cs => if isDigit c then some ((c :: cs).takeWhile isDigit) else firstDigits cs

/-- `parseInt` of a run of decimal digits. -/
def parseInt (ds : Str) : Nat := ds.foldl (fun n c => 10 * n + (c.toNat - 48)) 0

/-- The pattern `/PRE(\d+)POST/i` tried at the start of `s`. The run of digits is maximal:
a shorter run is followed by a digit, which no `POST` of the plugin starts with. -/
def numAt (pre post s : Str) : Option Str :=
  match litCI pre s with
  | none => none
  | some r =>
    if (r.takeWhile isDigit).isEmpty then none
    else
      match litCI post (r.dropWhile isDigit) with
      | none => none
      | some _ => some (r.takeWhile isDigit)

/-- `RegExp.$1` of `s.match(/PRE(\d+)POST/i)`, at the leftmost position that matches. -/
def captureNum (pre post : Str) : Str → Option Str
  | [] => numAt pre post []
  | c :: cs =>
    match numAt pre post (c :: cs) with
    | some ds => some ds
    | none => captureNum pre post cs

/-- The pattern `/PARAM[ ](.*?)[ ](.*)/i` tried at the start of `s`: the lazy group stops at
the first blank, which has to come before any line terminator. -/
def paramAt (s : Str) : Option (Str × Str) :=
  match litCI "PARAM ".toList s with
  | none => none
  | some r =>
    match r.dropWhile (fun c => !(c == ' ') && !isLineTerminator c) with
    | c :: rest =>
      if c == ' ' then
        some (r.takeWhile (fun c => !(c == ' ') && !isLineTerminator c), dotStar rest)
      else none
    | [] => none

/-- `RegExp.$1` and `RegExp.$2` of `s.match(/PARAM[ ](.*?)[ ](.*)/i)`. -/
def captureParam : Str → Option (Str × Str)
  | [] => none
  | c :: cs =>
    match paramAt (c :: cs) with
    | some r => some r
    | none => captureParam cs

/-- The pattern `/<CANNOT SELECT:[ ](.*)>/i` tried at the start of `s`: the greedy group
runs to the last `>` of the line. -/
def cannotSelectAt (s : Str) : Option Str :=
  match litCI "<CANNOT SELECT: ".toList s with
  | none => none
  | some r =>
    match (dotStar r).reverse.dropWhile (fun c => !(c == '>')) with
    | _ :: before => some before.reverse
    | [] => none

/-- `RegExp.$1` of `s.match(/<CANNOT SELECT:[ ](.*)>/i)`. -/
def captureCannotSelect : Str → Option Str
  | [] => none
  | c :: cs =>
    match cannotSelectAt (c :: cs) with
    | some r => some r
    | none => captureCannotSelect cs

/-- One pass of `split(/[\r\n]+/)`: the current piece, the pieces already closed (newest
first), and whether the previous character was a separator. -/
def splitStep (st : List Str × Str × Bool) (c : Char) : List Str × Str × Bool :=
  if c.toNat == 10 || c.toNat == 13 then
    if st.2.2 then st else (st.2.1.reverse :: st.1, [], true)
  else (st.1, c :: st.2.1, false)

/-- `note.split(/[\r\n]+/)`: the pieces between the runs of carriage returns and line
feeds; a run at the start or at the end leaves an empty piece there. -/
def splitLines (s : Str) : List Str :=
  let st := s.foldl splitStep ([], [], false)
  (st.2.1.reverse :: st.1).reverse

/-! ## Dictionaries -/

/-- A JavaScript object used as a dictionary from names to database ids. -/
abbrev IdRef := List (Str × Nat)

/-- The assignment `ref[key] = n`. -/
def IdRef.set (ref : IdRef) (key : Str) (n : Nat) : IdRef := (key, n) :: ref

/-- The read `ref[key]`; `none` is `undefined`. -/
def IdRef.get (ref : IdRef) (key : Str) : Option Nat := List.lookup key ref

/-- The truthy value of `ref[key]`, if it has one: the guard `if (ref[text])` followed by
`var id = ref[text]`. -/
def IdRef.truthy (ref : IdRef) (key : Str) : Option Nat :=
  match ref.get key with
  | some n => if n = 0 then none else some n
  | none => none

/-! ## Database -/

/-- An entry of `$dataActors`, `$dataClasses`, `$dataEnemies`, `$dataWeapons`,
`$dataArmors` or `$dataStates`, with the field `processSelectNotetags2` adds. -/
structure DataEntry where
  name : Str
  note : Str
  cannotSelect : List Str
  deriving DecidableEq

/-- An entry of `$dataSkills` or `$dataItems`, with the fields `processSelectNotetags1`
writes. -/
structure Item where
  id : Nat
  name : Str
  note : Str
  scope : Nat
  hitType : Nat
  stypeId : Nat
  /-- The field `damage.elementId`. -/
  elementId : Int
  aoeCircleRadius : Nat
  aoeRectColumn : Nat
  aoeRectRow : Nat
  aoeRectAll : Bool
  selectConditions : List Str
  selectConditionEval : Str
  deriving DecidableEq

/-- The length of a match of `/\\I\[(\d+)\]/i` at the start of `s`. -/
def iconCodeAt (s : Str) : Option Nat :=
  match numAt "\\I[".toList "]".toList s with
  | some ds => some (ds.length + 4)
  | none => none

/-- The scan of `name.replace(/\\I\[(\d+)\]/gi, '')`; `skip` characters of a match are
still to be dropped. -/
def stripIconsFrom : Nat → Str → Str
  | _, [] => []
  | skip + 1, _ :: cs => stripIconsFrom skip cs
  | 0, c :: cs =>
    match iconCodeAt (c :: cs) with
    | some k => stripIconsFrom (k - 1) cs
    | none => c :: stripIconsFrom 0 cs

/-- `name.replace(/\\I\[(\d+)\]/gi, '')`. -/
def stripIcons (s : Str) : Str := stripIconsFrom 0 s

/-- One of the two loops of `processSelectNotetagsSys`, from index `i` on. -/
def sysRefLoop (ref : IdRef) (i : Nat) : List Str → IdRef
  | [] => ref
  | name :: rest => sysRefLoop (ref.set (stripIcons (toUpperCase name)) i) (i + 1) rest

/-- The part of `$dataSystem` the plugin reads; index 0 of both lists is kept. -/
structure DataSystem where
  skillTypes : List Str
  elements : List Str

/-- `DataManager.processSelectNotetagsSys`: the pair `(STypeIdRef, ElementIdRef)`. -/
def processSelectNotetagsSys (group : DataSystem) : IdRef × IdRef :=
  (sysRefLoop [] 1 (group.skillTypes.drop 1), sysRefLoop [] 1 (group.elements.drop 1))

/-- The loop of `processSelectNotetags2` over the lines of a note. -/
def cannotSelectLines : List Str → List Str
  | [] => []
  | line :: rest =>
    match captureCannotSelect line with
    | some text => trim text :: cannotSelectLines rest
    | none => cannotSelectLines rest

/-- The body of the loop of `DataManager.processSelectNotetags2` for one entry. -/
def processSelectNotetags2 (obj : DataEntry) : DataEntry :=
  { obj with cannotSelect := cannotSelectLines (splitLines obj.note) }

/-! ## Battlers and actions -/

/-- What a battler is: a `Game_Actor` with its actor entry, class and equipment, or a
`Game_Enemy` with its enemy entry. -/
inductive Persona where
  | actor (actor currentClass : DataEntry) (equips : List (Option DataEntry))
  | enemy (enemy : DataEntry)
  deriving DecidableEq

/-- A battler of the host engine. -/
structure Battler where
  /-- Object identity. -/
  ident : Nat
  persona : Persona
  /-- The ids of the states `states()` returns. -/
  stateIds : List Nat
  /-- The value of `row()` of YEP_RowFormation. -/
  row : Nat
  deriving DecidableEq

/-- `Game_BattlerBase.prototype.isActor`. -/
def Battler.isActor (b : Battler) : Bool :=
  match b.persona with
  | .actor _ _ _ => true
  | .enemy _ => false

/-- A `Game_Action` with an item, and what the host engine answers about it. -/
structure Action where
  subject : Battler
  item : Item
  isForUser : Bool
  isPhysical : Bool
  isMagical : Bool
  isCertainHit : Bool
  isSkill : Bool
  isItem : Bool

/-- The globals the selection code reads, and the host services it calls. -/
structure Env where
  /-- `Imported.YEP_RowFormation`. -/
  rowFormation : Bool
  /-- `Yanfly.Param.RowMaximum`. -/
  rowMaximum : Nat
  /-- `$dataStates` from index 1 on. -/
  dataStates : List DataEntry
  itemIdRef : IdRef
  skillIdRef : IdRef
  stateIdRef : IdRef
  stypeIdRef : IdRef
  elementIdRef : IdRef
  /-- `unit.rowAliveSize(i)`; the unit is `$gameParty` for `true`, `$gameTroop` for
  `false`. -/
  rowAliveSize : Bool → Nat → Nat
  /-- `unit.rowMembers(i)`, as object identities. -/
  rowMembers : Bool → Nat → List Nat
  /-- Whether `eval(code)` of `selectConditionParam` is truthy for this user and target. -/
  evalParam : Str → Battler → Battler → Bool
  /-- Whether `condition` is truthy after the `eval` of `meetSelectionConditionEval`. -/
  evalCustom : Str → Battler → Battler → Bool

/-- `$dataStates[id]`; `none` is `null` or `undefined`. -/
def Env.dataState (env : Env) (id : Nat) : Option DataEntry :=
  if id = 0 then none else env.dataStates[id - 1]?

/-- The three branches `ITEM X`, `SKILL X` and `STYPE X` of `checkActionSelectable` once
the line matched: `text` is `RegExp.$1`, `value` the id of the action's item. -/
def idOrNameDiffers (ref : IdRef) (text : Str) (value : Int) : Bool :=
  match firstDigits (trim (toUpperCase text)) with
  | some ds => value != (parseInt ds : Int)
  | none =>
    match ref.truthy (trim (toUpperCase text)) with
    | some id => value != (id : Int)
    | none => true

/-- `Game_Battler.prototype.checkActionSelectable`. -/
def checkActionSelectable (env : Env) (self : Battler) (line : Str) (action : Action) :
    Bool :=
  if action.isForUser then true
  else if toUpperCase line = "ALL".toList then false
  else if toUpperCase line = "PHYSICAL HIT".toList then !action.isPhysical
  else if toUpperCase line = "MAGICAL HIT".toList then !action.isMagical
  else if toUpperCase line = "CERTAIN HIT".toList then !action.isCertainHit
  else if toUpperCase line = "SKILLS".toList then !action.isSkill
  else if toUpperCase line = "ITEMS".toList then !action.isItem
  else if toUpperCase line = "NOT USER".toList then action.subject.ident != self.ident
  else
    match (if action.isItem then captureRest "ITEM ".toList line else none) with
    | some text => idOrNameDiffers env.itemIdRef text action.item.id
    | none =>
      match (if action.isSkill then captureRest "SKILL ".toList line else none) with
      | some text => idOrNameDiffers env.skillIdRef text action.item.id
      | none =>
        match (if action.isSkill then captureRest "STYPE ".toList line else none) with
        | some text => idOrNameDiffers env.stypeIdRef text action.item.stypeId
        | none =>
          match captureRest "ELEMENT ".toList line with
          | some text => idOrNameDiffers env.stypeIdRef text action.item.elementId
          | none => true

/-- `Game_Battler.prototype.isSelectableObj`. -/
def isSelectableObj (env : Env) (self : Battler) (obj : DataEntry) (action : Action) :
    Bool :=
  obj.cannotSelect.all fun line => checkActionSelectable env self line action

/-- `Game_Battler.prototype.isSelectable` for an action that is not `null`: the loop over
`this.states()`, where an id without an entry in `$dataStates` gives `undefined` and is
skipped. -/
def Game_Battler.isSelectable (env : Env) (self : Battler) (action : Action) : Bool :=
  self.stateIds.all fun id =>
    match env.dataState id with
    | some obj => isSelectableObj env self obj action
    | none => true

/-- The function the plugin installs as `Game_Actors.prototype.isSelectable`, run with an
actor as `this`: states, then every equipped object, the actor entry and the class. -/
def Game_Actors.isSelectable (env : Env) (self : Battler) (actor currentClass : DataEntry)
    (equips : List (Option DataEntry)) (action : Action) : Bool :=
  if !Game_Battler.isSelectable env self action then false
  else if !(equips.all fun e =>
      match e with
      | some obj => isSelectableObj env self obj action
      | none => true) then false
  else if !isSelectableObj env self actor action then false
  else if !isSelectableObj env self currentClass action then false
  else true

/-- The call `target.isSelectable(action)` on a battler. `Game_Actor` and `Game_Enemy`
inherit from `Game_Battler`; the host's `Game_Actors`, on whose prototype the plugin puts
its second function, is the container of all actors and is on the prototype chain of
neither, so both kinds of battler run `Game_Battler.prototype.isSelectable`. -/
def Battler.isSelectable (env : Env) (self : Battler) (action : Action) : Bool :=
  match self.persona with
  | .actor _ _ _ => Game_Battler.isSelectable env self action
  | .enemy _ => Game_Battler.isSelectable env self action

/-- The loop of `selectConditionBackRow`, from row `i` down to row 1. -/
def backRowLoop (env : Env) (unit : Bool) (target : Battler) : Nat → Bool
  | 0 => true
  | i + 1 =>
    if env.rowAliveSize unit (i + 1) ≤ 0 then backRowLoop env unit target i
    else (env.rowMembers unit (i + 1)).contains target.ident

/-- `Game_Action.prototype.selectConditionBackRow`; the unit is `target.friendsUnit()`. -/
def selectConditionBackRow (env : Env) (action : Action) (target : Battler) : Bool :=
  if !env.rowFormation then true
  else if target.isActor == action.subject.isActor then true
  else backRowLoop env target.isActor target env.rowMaximum

/-- The loop of `selectConditionFrontRow` at row `i`, with `k` rows still to visit. -/
def frontRowLoop (env : Env) (unit : Bool) (target : Battler) : Nat → Nat → Bool
  | _, 0 => true
  | i, k + 1 =>
    if env.rowAliveSize unit i ≤ 0 then frontRowLoop env unit target (i + 1) k
    else (env.rowMembers unit i).contains target.ident

/-- `Game_Action.prototype.selectConditionFrontRow`: rows 1 to `RowMaximum`. -/
def selectConditionFrontRow (env : Env) (action : Action) (target : Battler) : Bool :=
  if !env.rowFormation then true
  else if target.isActor == action.subject.isActor then true
  else frontRowLoop env target.isActor target 1 env.rowMaximum

/-- `Game_Action.prototype.selectConditionSpecificRow`. -/
def selectConditionSpecificRow (env : Env) (action : Action) (target : Battler)
    (rowId : Nat) : Bool :=
  if !env.rowFormation then true
  else if target.isActor == action.subject.isActor then true
  else target.row == rowId

/-- `Game_Action.prototype.selectConditionRowMax`. -/
def selectConditionRowMax (env : Env) (action : Action) (target : Battler)
    (rowId : Nat) : Bool :=
  if !env.rowFormation then true
  else if target.isActor == action.subject.isActor then true
  else decide (target.row ≤ rowId)

/-- `Game_Action.prototype.selectConditionRowMin`. -/
def selectConditionRowMin (env : Env) (action : Action) (target : Battler)
    (rowId : Nat) : Bool :=
  if !env.rowFormation then true
  else if target.isActor == action.subject.isActor then true
  else decide (target.row ≥ rowId)

/-- The text `selectConditionParam` puts in front of the code, by parameter name. -/
def paramCode (param : Str) : Option Str :=
  if param = "MAXHP".toList ∨ param = "MHP".toList then some "target.mhp ".toList
  else if param = "MAXMP".toList ∨ param = "MMP".toList then some "target.mmp ".toList
  else if param = "MAXTP".toList ∨ param = "MTP".toList then some "target.maxTp() ".toList
  else if param = "HP".toList then some "target.hp ".toList
  else if param = "MP".toList then some "target.mp ".toList
  else if param = "TP".toList then some "target.tp ".toList
  else if param = "ATK".toList ∨ param = "STR".toList then some "target.atk ".toList
  else if param = "DEF".toList then some "target.def ".toList
  else if param = "MAT".toList ∨ param = "INT".toList ∨ param = "SPI".toList then
    some "target.mat ".toList
  else if param = "MDF".toList ∨ param = "RES".toList then some "target.mdf ".toList
  else if param = "AGI".toList then some "target.agi ".toList
  else if param = "LUK".toList then some "target.luk ".toList
  else if param = "LEVEL".toList then some "target.level ".toList
  else if param = "HP%".toList then some "target.hpRate() ".toList
  else if param = "MP%".toList then some "target.mpRate() ".toList
  else if param = "TP%".toList then some "target.tpRate() ".toList
  else none

/-- `Game_Action.prototype.selectConditionParam`, as a truth value: an unknown parameter
returns `undefined`. -/
def selectConditionParam (env : Env) (user target : Battler) (param code : Str) : Bool :=
  match paramCode param with
  | some head => env.evalParam (head ++ code) user target
  | none => false

/-- The id both state conditions work out from their text. -/
def stateIdOf (env : Env) (text : Str) : Option Nat :=
  match firstDigits text with
  | some ds => some (parseInt ds)
  | none => env.stateIdRef.truthy text

/-- `Game_Action.prototype.selectConditionNotState`. -/
def selectConditionNotState (env : Env) (target : Battler) (text : Str) : Bool :=
  match stateIdOf env text with
  | none => false
  | some id =>
    match env.dataState id with
    | none => false
    | some _ => !target.stateIds.contains id

/-- `Game_Action.prototype.selectConditionState`. -/
def selectConditionState (env : Env) (target : Battler) (text : Str) : Bool :=
  match stateIdOf env text with
  | none => false
  | some id =>
    match env.dataState id with
    | none => false
    | some _ => target.stateIds.contains id

/-- `Game_Action.prototype.meetSelectionCondition`, as a truth value. -/
def meetSelectionCondition (env : Env) (action : Action) (line : Str)
    (user target : Battler) : Bool :=
  if testCI "BACK ROW ONLY".toList line then selectConditionBackRow env action target
  else if testCI "FRONT ROW ONLY".toList line then selectConditionFrontRow env action target
  else
    match captureNum "ROW ".toList " ONLY".toList line with
    | some ds => selectConditionSpecificRow env action target (parseInt ds)
    | none =>
      match captureNum "ROW ".toList " MAX".toList line with
      | some ds => selectConditionRowMax env action target (parseInt ds)
      | none =>
        match captureNum "ROW ".toList " MIN".toList line with
        | some ds => selectConditionRowMin env action target (parseInt ds)
        | none =>
          match captureParam line with
          | some (p, c) =>
            selectConditionParam env user target (trim (toUpperCase p)) (trim c)
          | none =>
            match captureRest "NOT STATE: ".toList line with
            | some text => selectConditionNotState env target (trim (toUpperCase text))
            | none =>
              match captureRest "STATE: ".toList line with
              | some text => selectConditionState env target (trim (toUpperCase text))
              | none => true

/-- `Game_Action.prototype.meetSelectionConditionEval`, as a truth value. -/
def meetSelectionConditionEval (env : Env) (action : Action) (user target : Battler) :
    Bool :=
  if action.item.selectConditionEval = [] then true
  else env.evalCustom action.item.selectConditionEval user target

/-- The loop of `checkAllSelectionConditions` over the conditions: an empty line is
skipped, the first line that is not met ends the loop. -/
def conditionsLoop (env : Env) (action : Action) (user target : Battler) :
    List Str → Bool
  | [] => true
  | line :: rest =>
    if line.isEmpty then conditionsLoop env action user target rest
    else if !meetSelectionCondition env action line user target then false
    else conditionsLoop env action user target rest

/-- `Game_Action.prototype.checkAllSelectionConditions`. -/
def checkAllSelectionConditions (env : Env) (action : Action) (user target : Battler) :
    Bool :=
  if !target.isSelectable env action then false
  else if !conditionsLoop env action user target action.item.selectConditions then false
  else if !meetSelectionConditionEval env action user target then false
  else true

/-! ## Notetags of skills and items -/

/-- The plugin parameters `processSelectNotetags1` reads, and the two constants of
`Game_Action` it compares `hitType` with. -/
structure Params where
  selectSoleMulti : Bool
  selectDisperse : Bool
  selectActorEnemy : Bool
  selectMelee : Bool
  hittypePhysical : Nat
  hittypeMagical : Nat

/-- The variable `evalMode` of `processSelectNotetags1`. -/
inductive EvalMode where
  | none
  | selectConditions
  | customSelectCondition
  deriving DecidableEq

/-- The variables of the first loop of `processSelectNotetags1`. -/
structure NoteState where
  selectConditions : List Str
  changed : Bool
  evalMode : EvalMode
  selectConditionEval : Str

/-- `line.match(/<(?:SELECT CONDITION|SELECT CONDITIONS)>/i)`. -/
def isOpenTag (line : Str) : Bool :=
  testCI "<SELECT CONDITION>".toList line || testCI "<SELECT CONDITIONS>".toList line

/-- `line.match(/<\/(?:SELECT CONDITION|SELECT CONDITIONS)>/i)`. -/
def isCloseTag (line : Str) : Bool :=
  testCI "</SELECT CONDITION>".toList line || testCI "</SELECT CONDITIONS>".toList line

/-- One round of the first loop of `processSelectNotetags1`. -/
def noteStep (st : NoteState) (line : Str) : NoteState :=
  if isOpenTag line then
    { st with evalMode := .selectConditions, selectConditions := [], changed := true }
  else if isCloseTag line then { st with evalMode := .none }
  else if st.evalMode = .selectConditions then
    { st with selectConditions := st.selectConditions ++ [trim line] }
  else if testCI "<CUSTOM SELECT CONDITION>".toList line then
    { st with evalMode := .customSelectCondition }
  else if testCI "</CUSTOM SELECT CONDITION>".toList line then { st with evalMode := .none }
  else if st.evalMode = .customSelectCondition then
    { st with selectConditionEval := st.selectConditionEval ++ line ++ ['\n'] }
  else st

/-- The variables of the second loop of `processSelectNotetags1`. -/
structure OptionState where
  selectConditions : List Str
  scope : Nat
  changed : Bool

/-- Whether a line holds one of the four option notetags. -/
def isOptionTag (line : Str) : Bool :=
  testCI "<SINGLE OR MULTIPLE SELECT>".toList line || testCI "<DISPERSE DAMAGE>".toList line ||
  testCI "<ENEMY OR ACTOR SELECT>".toList line || testCI "<ACTOR OR ENEMY SELECT>".toList line

/-- One round of the second loop of `processSelectNotetags1`. -/
def optionStep (st : OptionState) (line : Str) : OptionState :=
  if testCI "<SINGLE OR MULTIPLE SELECT>".toList line then
    { st with selectConditions := st.selectConditions ++ ["SINGLE OR MULTIPLE SELECT".toList],
              changed := true }
  else if testCI "<DISPERSE DAMAGE>".toList line then
    { st with selectConditions := st.selectConditions ++ ["DISPERSE DAMAGE SELECT".toList],
              changed := true }
  else if testCI "<ENEMY OR ACTOR SELECT>".toList line then
    { selectConditions := st.selectConditions ++ ["ENEMY OR ACTOR SELECT".toList],
      scope := 1, changed := true }
  else if testCI "<ACTOR OR ENEMY SELECT>".toList line then
    { selectConditions := st.selectConditions ++ ["ACTOR OR ENEMY SELECT".toList],
      scope := 7, changed := true }
  else st

/-- The block `if (!changed)` of `processSelectNotetags1`: the conditions the plugin
parameters add to an object without notetag. -/
def defaultConditions (par : Params) (isSkill : Bool) (hitType scope : Nat)
    (conds : List Str) : List Str :=
  let c1 :=
    if isSkill && hitType == par.hittypeMagical then
      if par.selectSoleMulti && (scope == 1 || scope == 7) then
        conds ++ ["SINGLE OR MULTIPLE SELECT".toList]
      else conds
    else if isSkill && hitType == par.hittypePhysical then
      if par.selectMelee && scope == 1 then conds ++ ["FRONT ROW ONLY".toList] else conds
    else conds
  let c2 :=
    if par.selectActorEnemy then
      let d := if scope = 1 then c1 ++ ["ENEMY OR ACTOR SELECT".toList] else c1
      if scope = 7 then d ++ ["ACTOR OR ENEMY SELECT".toList] else d
    else c1
  if par.selectDisperse then c2 ++ ["DISPERSE DAMAGE SELECT".toList] else c2

/-- `DataManager.removeAoeEffects`. -/
def removeAoeEffects (obj : Item) : Item :=
  if obj.selectConditions.contains "SINGLE OR MULTIPLE SELECT".toList then
    { obj with aoeCircleRadius := 0, aoeRectColumn := 0, aoeRectRow := 0, aoeRectAll := false }
  else obj

/-- The body of the loop of `DataManager.processSelectNotetags1` for one entry. -/
def processSelectNotetags1 (par : Params) (isSkill : Bool) (obj : Item) : Item :=
  let notedata := splitLines obj.note
  let st1 := notedata.foldl noteStep
    { selectConditions := [], changed := false, evalMode := .none, selectConditionEval := [] }
  let st2 := notedata.foldl optionStep
    { selectConditions := st1.selectConditions, scope := obj.scope, changed := st1.changed }
  let conds :=
    if !st2.changed then defaultConditions par isSkill obj.hitType st2.scope st2.selectConditions
    else st2.selectConditions
  removeAoeEffects
    { obj with selectConditions := conds, selectConditionEval := st1.selectConditionEval,
               scope := st2.scope }

/-! ## Dispersed damage -/

/-- The fields the plugin adds to a `Game_Action`. -/
structure ActionState where
  selectedTargetType : Str
  selectedDmgMod : ℚ
  /-- The field `_forcedSelectedUnit`: `none` is `false`. -/
  forcedSelectedUnit : Option Str
  bypassForceSelectedUnit : Bool

/-- What `Game_Action.prototype.clear` writes after the host's `clear`. -/
def clear : ActionState :=
  { selectedTargetType := [], selectedDmgMod := 1, forcedSelectedUnit := none,
    bypassForceSelectedUnit := false }

/-- `Game_Action.prototype.selectConditions`. -/
def selectConditions (item : Option Item) : List Str :=
  match item with
  | none => []
  | some it => it.selectConditions

/-- `Game_Action.prototype.matchSelectConditions` for a pattern that is a literal with
flag `i`. -/
def matchSelectConditions (item : Option Item) (pat : Str) : Bool :=
  (selectConditions item).any fun condition => testCI pat condition

/-- `Game_Action.prototype.isDisperseDamage`. -/
def isDisperseDamage (item : Option Item) : Bool :=
  matchSelectConditions item "DISPERSE DAMAGE SELECT".toList

/-- `Game_Action.prototype.chooseSelectionUnit`; `forEverybody` is the host's
`isForEverybody()`. -/
def chooseSelectionUnit (st : ActionState) (forEverybody : Bool) (unit : Str) :
    ActionState :=
  if forEverybody then st else { st with forcedSelectedUnit := some unit }

/-- `Game_Action.prototype.setTarget` called with a string, up to the call of the host's
`setTarget`. -/
def setTargetText (st : ActionState) (forEverybody : Bool) (targetIndex : Str) :
    ActionState :=
  match captureNum "ACTOR ".toList " SELECT".toList targetIndex with
  | some _ => chooseSelectionUnit st forEverybody "party".toList
  | none =>
    match captureNum "ENEMY ".toList " SELECT".toList targetIndex with
    | some _ => chooseSelectionUnit st forEverybody "troop".toList
    | none => { st with selectedTargetType := targetIndex }

/-- `Game_Action.prototype.makeTargetChoices`: `opponents` and `friends` are the lists
`this.opponentsUnit().aliveMembers()` and `this.friendsUnit().aliveMembers()` return,
`host` is the result of the host's `makeTargets`. -/
def makeTargetChoices (st : ActionState) (item : Option Item)
    (opponents friends host : List Battler) : List Battler × ActionState :=
  if st.selectedTargetType = "ALL ENEMIES".toList then
    (opponents,
      if isDisperseDamage item then
        { st with selectedDmgMod := 1 / (max 1 opponents.length : ℕ) }
      else st)
  else if st.selectedTargetType = "ALL ALLIES".toList then
    (friends,
      if isDisperseDamage item then
        { st with selectedDmgMod := 1 / (max 1 friends.length : ℕ) }
      else st)
  else (host, st)

/-- `Math.round`: the nearest integer, a half going up. -/
def mathRound (x : ℚ) : ℤ := ⌊x + 1 / 2⌋

/-- `Game_Action.prototype.makeDamageValue`; `value` is the result of the host's
`makeDamageValue`. -/
def makeDamageValue (st : ActionState) (value : ℚ) : ℤ :=
  mathRound (value * st.selectedDmgMod)

/-- A call that touches the fields of `ActionState`. -/
inductive ActionOp where
  | setTargetIndex (targetIndex : Int)
  | setTargetText (forEverybody : Bool) (targetIndex : Str)
  | makeTargetChoices (opponents friends host : List Battler)
  | bypassForceSelectedUnit (value : Bool)

/-- The effect of one call on the fields of the action. -/
def ActionOp.apply (item : Option Item) (st : ActionState) : ActionOp → ActionState
  | .setTargetIndex _ => st
  | .setTargetText fe s => SelectionControl.setTargetText st fe s
  | .makeTargetChoices o f h => (SelectionControl.makeTargetChoices st item o f h).2
  | .bypassForceSelectedUnit v => { st with bypassForceSelectedUnit := v }

/-- The fields of the action after a run of calls. -/
def runOps (item : Option Item) (st : ActionState) (ops : List ActionOp) : ActionState :=
  ops.foldl (ActionOp.apply item) st

end SelectionControl

namespace QuasiSight

/-! ## Shadow casting -/

/-- A `Point` of the host engine. -/
structure Point (α : Type) where
  x : α
  y : α
  deriving DecidableEq

/-- The members of `Math` that `shadowCast` uses. -/
structure Trig (α : Type) where
  pi : α
  atan2 : α → α → α
  cos : α → α
  sin : α → α

/-- The object `radianWithPoint`: its keys are angles. -/
abbrev RadianMap (α : Type) := List (α × Point α)

section Cast

variable {α : Type} [LinearOrderedField α]

/-- The angle the first loop of `shadowCast` gives a vertex, seen from `(cx, cy)`. -/
def radianOf (T : Trig α) (cx cy : α) (p : Point α) : α :=
  T.atan2 (cy - p.y) (p.x - cx) + (if T.atan2 (cy - p.y) (p.x - cx) < 0 then 2 * T.pi else 0)

/-- One round of the first loop of `shadowCast`. -/
def collectStep (T : Trig α) (cx cy : α) (st : RadianMap α × List α) (p : Point α) :
    RadianMap α × List α :=
  ((radianOf T cx cy p, p) :: st.1, st.2 ++ [radianOf T cx cy p])

/-- `radians.sort(function(a, b) { return a - b; })`. -/
def sortRadians (rs : List α) : List α := rs.insertionSort (· ≤ ·)

/-- One round of the loop that shifts the angles above `Math.PI`; the read of
`radianWithPoint[radians[i]]` finds the point the first loop stored. -/
def shiftStep (T : Trig α) (st : RadianMap α × List α) (r : α) : RadianMap α × List α :=
  if r > T.pi then
    (match List.lookup r st.1 with
      | some old => (r - 2 * T.pi, old) :: st.1
      | none => st.1,
     st.2 ++ [r - 2 * T.pi])
  else (st.1, st.2 ++ [r])

/-- `Game_CharacterBase.prototype.shadowCast`: `cx`, `cy` are `this.cx()`, `this.cy()`,
`len` is `this._sightSettings.length` and `vertices` is `obj.vertices()`. The result is
`none` where the code reads a field of `undefined`. -/
def shadowCast (T : Trig α) (cx cy len : α) (vertices : List (Point α)) :
    Option (List (Point α) × α × α) :=
  let st0 := vertices.foldl (collectStep T cx cy) ([], [])
  let radians := sortRadians st0.2
  match radians.head?, radians.getLast? with
  | some min0, some max0 =>
    let st1 :=
      if |max0 - min0| > T.pi then
        let sh := radians.foldl (shiftStep T) (st0.1, [])
        (sh.1, sortRadians sh.2)
      else (st0.1, radians)
    match st1.2.head?, st1.2.getLast? with
    | some min, some max =>
      match List.lookup max st1.1, List.lookup min st1.1 with
      | some pmax, some pmin =>
        let l := len * (3 / 2)
        let x1 := pmax.x - pmin.x
        let y1 := pmax.y - pmin.y
        let x2 := x1 + l * T.cos max
        let y2 := y1 + l * -T.sin max
        let x3 := l * T.cos min
        let y3 := l * -T.sin min
        some ([⟨0, 0⟩, ⟨x1, y1⟩, ⟨x2, y2⟩, ⟨x3, y3⟩], pmin.x, pmin.y)
      | _, _ => none
    | _, _ => none
  | _, _ => none

/-- The angle of a vertex as the text describes it: the angle around the centre, taken
in `[0, 2 pi)`. -/
def baseAngle (T : Trig α) (cx cy : α) (p : Point α) : α :=
  if T.atan2 (cy - p.y) (p.x - cx) < 0 then T.atan2 (cy - p.y) (p.x - cx) + 2 * T.pi
  else T.atan2 (cy - p.y) (p.x - cx)

/-- Whether the spread between the smallest and the largest angle of the vertices
exceeds `pi`. -/
def wideSpread (T : Trig α) (cx cy : α) (vertices : List (Point α)) : Bool :=
  vertices.any fun p => vertices.any fun q =>
    decide (baseAngle T cx cy q - baseAngle T cx cy p > T.pi)

/-- The angle a vertex is sorted by, as the text describes it: every angle above `pi` is
shifted by `-2 pi` when the spread exceeds `pi`. -/
def sortAngle (T : Trig α) (cx cy : α) (vertices : List (Point α)) (p : Point α) : α :=
  if wideSpread T cx cy vertices = true ∧ baseAngle T cx cy p > T.pi then
    baseAngle T cx cy p - 2 * T.pi
  else baseAngle T cx cy p

end Cast

/-! ## The cache of a character with sight -/

/-- An entry of `this._sight.objs`: the position of the event when the entry was made,
the event itself (by id: its position is read from the map), the flag `reshape` and the
shadow collider. -/
structure ObjEntry (σ : Type) where
  cache : Int × Int
  chara : Nat
  reshape : Bool
  shadow : σ

/-- An entry of `this._sight.tileShadows`. -/
structure TileEntry (σ : Type) where
  reshape : Bool
  shadow : σ

/-- The object `this._sight`; `origin` and `target` are `undefined` until the first
`checkSight`. -/
structure Sight (σ : Type) where
  origin : Option (Int × Int × Nat)
  target : Option (Int × Int)
  tileShadows : List (Nat × TileEntry σ)
  objs : List (Nat × ObjEntry σ)

/-- The fields of a character with sight the cache depends on. -/
structure Observer (σ : Type) where
  px : Int
  py : Int
  direction : Nat
  /-- The field `_sightSettings.update`. -/
  update : Bool
  /-- The field `_sight`; `none` is `null`. -/
  sight : Option (Sight σ)

/-- The map around the character: the position of its target and of every event. -/
structure World where
  targetPx : Int
  targetPy : Int
  eventPos : Nat → Int × Int

/-- The geometry of the host engine. A shadow collider is a value of `σ`: `castTile` and
`castEvent` stand for the polygon collider built from `shadowCast` of a tile or of an
event's collider and moved to its anchor, whose shape plays no part in the cache. -/
structure Host (σ : Type) where
  /-- The result of `insideSightRange`. -/
  insideSightRange : Int × Int × Nat → World → Bool
  /-- The locations of the tiles `insideTileShadow` keeps after its filter. -/
  tilesAt : Int × Int × Nat → World → List Nat
  /-- The ids of the events `getCharactersAt` returns to `insideEventShadow`. -/
  eventsAt : Int × Int × Nat → World → List Nat
  castTile : Int × Int × Nat → Nat → σ
  castEvent : Int × Int × Nat → World → Nat → σ
  /-- The call `shadow.halfInside(target.collider())`. -/
  halfInside : σ → World → Bool

section Cache

variable {σ : Type}

/-- The assignment `dict[id] = entry` on an object used as a dictionary. -/
def setKey {β : Type} (dict : List (Nat × β)) (id : Nat) (entry : β) : List (Nat × β) :=
  if dict.any (fun kv => kv.1 == id) then
    dict.map fun kv => if kv.1 == id then (id, entry) else kv
  else dict ++ [(id, entry)]

/-- The first loop over `this._sight.tileShadows` (or `objs`) of `needsSightUpdate`:
every entry gets `reshape = true`. -/
def flagTiles (tiles : List (Nat × TileEntry σ)) : List (Nat × TileEntry σ) :=
  tiles.map fun kv => (kv.1, { kv.2 with reshape := true })

/-- The loop over `this._sight.objs` after a move of the character. -/
def flagObjs (objs : List (Nat × ObjEntry σ)) : List (Nat × ObjEntry σ) :=
  objs.map fun kv => (kv.1, { kv.2 with reshape := true })

/-- Whether the event of an entry is no longer where the entry cached it. -/
def ObjEntry.moved (w : World) (e : ObjEntry σ) : Bool :=
  e.cache.1 != (w.eventPos e.chara).1 || e.cache.2 != (w.eventPos e.chara).2

/-- The last loop of `needsSightUpdate`: the entries whose event moved get
`reshape = true`. -/
def flagMoved (w : World) (objs : List (Nat × ObjEntry σ)) : List (Nat × ObjEntry σ) :=
  objs.map fun kv => if kv.2.moved w then (kv.1, { kv.2 with reshape := true }) else kv

/-- `Game_CharacterBase.prototype.needsSightUpdate`: the result and the character
afterwards; `none` where the code reads a field of `undefined`. -/
def needsSightUpdate (w : World) (c : Observer σ) : Option (Bool × Observer σ) :=
  if !c.update then some (false, c)
  else
    match c.sight with
    | none =>
      some (true, { c with sight := some { origin := none, target := none,
                                            tileShadows := [], objs := [] } })
    | some s =>
      match s.origin, s.target with
      | some o, some t =>
        if o.1 != c.px || o.2.1 != c.py || o.2.2 != c.direction then
          some (true, { c with sight := some { s with tileShadows := flagTiles s.tileShadows,
                                                        objs := flagObjs s.objs } })
        else if t.1 != w.targetPx || t.2 != w.targetPy then some (true, c)
        else
          some (s.objs.any (fun kv => kv.2.moved w),
                { c with sight := some { s with objs := flagMoved w s.objs } })
      | _, _ => none

/-- One round of the loop of `insideTileShadow`. -/
def tileStep (h : Host σ) (w : World) (pose : Int × Int × Nat)
    (st : List (Nat × TileEntry σ) × Bool) (id : Nat) : List (Nat × TileEntry σ) × Bool :=
  let entry : TileEntry σ :=
    match st.1.find? (fun kv => kv.1 == id) with
    | some kv => kv.2
    | none => { reshape := false, shadow := h.castTile pose id }
  let entry : TileEntry σ :=
    if entry.reshape then { reshape := false, shadow := h.castTile pose id } else entry
  (setKey st.1 id entry, st.2 || h.halfInside entry.shadow w)

/-- One round of the loop of `insideEventShadow`. -/
def eventStep (h : Host σ) (w : World) (pose : Int × Int × Nat)
    (st : List (Nat × ObjEntry σ) × Bool) (id : Nat) : List (Nat × ObjEntry σ) × Bool :=
  let entry : ObjEntry σ :=
    match st.1.find? (fun kv => kv.1 == id) with
    | some kv => kv.2
    | none => { cache := w.eventPos id, chara := id, reshape := false,
                shadow := h.castEvent pose w id }
  let entry : ObjEntry σ :=
    if entry.reshape then { entry with reshape := false, shadow := h.castEvent pose w id }
    else entry
  (setKey st.1 id entry, st.2 || h.halfInside entry.shadow w)

/-- `Game_CharacterBase.prototype.checkSight`, with `insideSightRange`,
`insideTileShadow` and `insideEventShadow`: the result and the character afterwards;
`none` where `this._sight` is `null`. -/
def checkSight (h : Host σ) (w : World) (c : Observer σ) : Option (Bool × Observer σ) :=
  match c.sight with
  | none => none
  | some s =>
    let pose := (c.px, c.py, c.direction)
    let s1 : Sight σ := { s with origin := some pose, target := some (w.targetPx, w.targetPy) }
    if !h.insideSightRange pose w then some (false, { c with sight := some s1 })
    else
      let tl := (h.tilesAt pose w).foldl (tileStep h w pose) (s1.tileShadows, false)
      let s2 : Sight σ := { s1 with tileShadows := tl.1 }
      if tl.2 then some (false, { c with sight := some s2 })
      else
        let ev := (h.eventsAt pose w).foldl (eventStep h w pose) (s2.objs, false)
        let s3 : Sight σ := { s2 with objs := ev.1 }
        if ev.2 then some (false, { c with sight := some s3 })
        else some (true, { c with sight := some s3 })

/-- `Game_CharacterBase.prototype.update` for a character with sight, after the host's
`update`: the character afterwards and the value written to the self switch, if any. -/
def update (h : Host σ) (w : World) (c : Observer σ) : Option (Observer σ × Option Bool) :=
  match needsSightUpdate w c with
  | none => none
  | some (false, c1) => some (c1, none)
  | some (true, c1) =>
    match checkSight h w c1 with
    | none => none
    | some (seen, c2) => some (c2, some seen)

end Cache

end QuasiSight

namespace SelectionControl

/-! ## A small battle -/

/-- An empty entry of the database. -/
def blankEntry : DataEntry := { name := [], note := [], cannotSelect := [] }

/-- An actor entry with the notetag `<Cannot Select: All>`, after
`processSelectNotetags2`. -/
def shieldedActorEntry : DataEntry :=
  processSelectNotetags2
    { name := "Harold".toList, note := "<Cannot Select: All>".toList, cannotSelect := [] }

/-- An actor without states whose actor entry is `shieldedActorEntry`. -/
def shieldedActor : Battler :=
  { ident := 1, persona := .actor shieldedActorEntry blankEntry [], stateIds := [], row := 1 }

/-- An enemy without states whose enemy entry has the notetag `<Cannot Select: All>`. -/
def shieldedEnemy : Battler :=
  { ident := 2, persona := .enemy shieldedActorEntry, stateIds := [], row := 1 }

/-- A skill with the given damage element and conditions. -/
def plainSkill (elementId : Int) (conds : List Str) : Item :=
  { id := 3, name := "Strike".toList, note := [], scope := 1, hitType := 1, stypeId := 1,
    elementId := elementId, aoeCircleRadius := 0, aoeRectColumn := 0, aoeRectRow := 0,
    aoeRectAll := false, selectConditions := conds, selectConditionEval := [] }

/-- A physical skill used by `subject` on one target, not on the user. -/
def strike (subject : Battler) (elementId : Int) (conds : List Str) : Action :=
  { subject := subject, item := plainSkill elementId conds, isForUser := false,
    isPhysical := true, isMagical := false, isCertainHit := false, isSkill := true,
    isItem := false }

/-- A system data with two elements and one skill type. -/
def smallSystem : DataSystem :=
  { skillTypes := [[], "Magic".toList], elements := [[], "Physical".toList, "Fire".toList] }

/-- The globals after `processSelectNotetagsSys smallSystem`, with row formation imported,
three rows and no states, items or skills in the database. -/
def smallEnv : Env :=
  { rowFormation := true, rowMaximum := 3, dataStates := [], itemIdRef := [],
    skillIdRef := [], stateIdRef := [],
    stypeIdRef := (processSelectNotetagsSys smallSystem).1,
    elementIdRef := (processSelectNotetagsSys smallSystem).2,
    rowAliveSize := fun _ _ => 0, rowMembers := fun _ _ => [],
    evalParam := fun _ _ _ => false, evalCustom := fun _ _ _ => false }

/-! ## Condition lines -/

/-- The character of a decimal digit. -/
def digitChar (d : Nat) : Char := Char.ofNat (48 + d)

/-- The digits of `n` put in front of `acc`; `fuel` bounds the number of digits. -/
def decimalAux : Nat → Nat → Str → Str
  | 0, _, acc => acc
  | fuel + 1, n, acc =>
    if n < 10 then digitChar n :: acc
    else decimalAux fuel (n / 10) (digitChar (n % 10) :: acc)

/-- The decimal numeral of a natural number: `String(n)`. -/
def decimal (n : Nat) : Str := decimalAux (n + 1) n []

/-- The condition line `Row x Only`. -/
def rowOnlyLine (x : Nat) : Str := "Row ".toList ++ decimal x ++ " Only".toList

/-- A second actor, in row 2. -/
def backActor : Battler :=
  { ident := 4, persona := .actor blankEntry blankEntry [], stateIds := [], row := 2 }

/-- An enemy affected by state 3 only. -/
def ragingEnemy : Battler :=
  { ident := 5, persona := .enemy blankEntry, stateIds := [3], row := 1 }

/-- The globals of `smallEnv` with a troop whose row 1 has no living member: enemy 2 is
in row 2, the dead enemy 6 in row 1. The party has actor 1 in row 1. -/
def rowsEnv : Env :=
  { smallEnv with
    rowAliveSize := fun unit i =>
      if unit then (if i = 1 then 1 else 0) else (if i = 2 then 1 else 0),
    rowMembers := fun unit i =>
      if unit then (if i = 1 then [1] else [])
      else (if i = 1 then [6] else if i = 2 then [2] else []) }

/-- A skill whose note holds one block of two conditions, after a line of free text. -/
def notedSkill : Item :=
  { plainSkill 1 [] with
    note := "Deals damage.\n<Select Conditions>\n  Row 1 Only \nState: Guard\n</Select Conditions>\nEnd".toList }

/-- The plugin parameters at their defaults, with the host's hit types. -/
def defaultParams : Params :=
  { selectSoleMulti := true, selectDisperse := true, selectActorEnemy := true,
    selectMelee := false, hittypePhysical := 1, hittypeMagical := 2 }

/-- A target type that is neither of the two group targets. -/
def notGroupTarget (s : Str) : Prop := s ≠ "ALL ENEMIES".toList ∧ s ≠ "ALL ALLIES".toList

/-- An action set to hit all enemies, before `makeTargetChoices`. -/
def allEnemiesState : ActionState := setTargetText clear false "ALL ENEMIES".toList

/-- A skill with the condition `DISPERSE DAMAGE SELECT`. -/
def dispersedSkill : Item := plainSkill 1 ["DISPERSE DAMAGE SELECT".toList]

end SelectionControl

namespace QuasiSight

section CastSpec

variable {α : Type} [LinearOrderedField α]

/-- The value the shifting loop leaves in `radians[i]`. -/
def shiftValue (T : Trig α) (r : α) : α := if r > T.pi then r - 2 * T.pi else r

/-- An entry of `radianWithPoint` is sound: its point is a vertex, stored under its angle
or, for an angle above `pi`, under the shifted angle. -/
def EntryOk (T : Trig α) (cx cy : α) (vertices : List (Point α)) (e : α × Point α) : Prop :=
  e.2 ∈ vertices ∧
    (e.1 = baseAngle T cx cy e.2 ∨
      (e.1 = baseAngle T cx cy e.2 - 2 * T.pi ∧ baseAngle T cx cy e.2 > T.pi))

end CastSpec

/-- A stand-in for `Math` on the rationals, with `pi = 3`: the angle only tells the
half-planes apart, within the range of `Math.atan2`. -/
def coarseTrig : Trig ℚ :=
  { pi := 3,
    atan2 := fun y x => if y < 0 then -1 else if 0 < y then 1 else if x < 0 then 3 else 0,
    cos := fun r => 1 - r,
    sin := fun r => r }

/-- The four corners of a box collider of side 48 at `(96, 0)`. -/
def boxVertices : List (Point ℚ) :=
  [⟨96, 0⟩, ⟨144, 0⟩, ⟨144, 48⟩, ⟨96, 48⟩]

/-- The character after `n` calls of `update` in the same world. -/
def updates {σ : Type} (h : Host σ) (w : World) : Nat → Observer σ → Option (Observer σ)
  | 0, c => some c
  | n + 1, c =>
    match update h w c with
    | none => none
    | some (c1, _) => updates h w n c1

/-- A host whose shadows have no shape: the target is always in range and never in a
shadow, no tile casts a shadow, and event 7 is the one event in range. -/
def guardHost : Host Unit :=
  { insideSightRange := fun _ _ => true, tilesAt := fun _ _ => [],
    eventsAt := fun _ _ => [7], castTile := fun _ _ => (), castEvent := fun _ _ _ => (),
    halfInside := fun _ _ => false }

/-- The target at `(0, 96)` and every event at `(48, 48)`. -/
def calmWorld : World := { targetPx := 0, targetPy := 96, eventPos := fun _ => (48, 48) }

/-- The world of `calmWorld` after the events moved to `(52, 48)`. -/
def movedWorld : World := { targetPx := 0, targetPy := 96, eventPos := fun _ => (52, 48) }

/-- A character with sight at `(0, 0)` facing down, before its first update. -/
def freshGuard : Observer Unit :=
  { px := 0, py := 0, direction := 2, update := true, sight := none }

/-- The character after its first sight check: event 7 is cached at `(48, 48)`. -/
def settledGuard : Observer Unit :=
  { px := 0, py := 0, direction := 2, update := true,
    sight := some
      { origin := some (0, 0, 2), target := some (0, 96), tileShadows := [],
        objs := [(7, { cache := (48, 48), chara := 7, reshape := false, shadow := () })] } }

end QuasiSight

namespace SelectionControl

/-! ## The table of item names -/

end SelectionControl

namespace ExtMesPack

open SelectionControl

/-! ## Digit grouping -/

end ExtMesPack

/-! # Theorems -/

namespace SelectionControl

/-! ## The loop over the conditions -/

theorem conditionsLoop_eq_true_iff (env : Env) (action : Action) (user target : Battler)
    (conds : List Str) :
    conditionsLoop env action user target conds = true ↔
      ∀ line ∈ conds, line ≠ [] → meetSelectionCondition env action line user target = true := by
  induction conds with
  | nil => simp [conditionsLoop]
  | cons line rest ih =>
    unfold conditionsLoop
    by_cases hl : line = []
    · subst hl
      simp [ih]
    · have hne : line.isEmpty = false := by
        cases line with
        | nil => exact absurd rfl hl
        | cons c cs => rfl
      by_cases hm : meetSelectionCondition env action line user target = true
      · simp [hne, hm, ih]
      · simp [hne, hm, hl]

theorem checkAll_eq_true_iff (env : Env) (action : Action) (user target : Battler) :
    checkAllSelectionConditions env action user target = true ↔
      target.isSelectable env action = true ∧
      (∀ line ∈ action.item.selectConditions, line ≠ [] →
        meetSelectionCondition env action line user target = true) ∧
      meetSelectionConditionEval env action user target = true := by
  rw [← conditionsLoop_eq_true_iff]
  unfold checkAllSelectionConditions
  cases target.isSelectable env action <;>
    cases conditionsLoop env action user target action.item.selectConditions <;>
    cases meetSelectionConditionEval env action user target <;> simp

/-- C2. The help promises that `<Cannot Select: All>` on an actor entry keeps every action
that does not target the user from selecting the actor. Here the notetag is parsed
(`cannotSelect` is `["All"]`), the function installed on `Game_Actors` would refuse the
actor, and yet `isSelectable` of the actor, and of an enemy with the same notetag on its
enemy entry, is true: only the states of a battler are looked at. -/
theorem isSelectable_ignores_entry_notetag :
    shieldedActorEntry.cannotSelect = ["All".toList] ∧
    (strike shieldedEnemy 1 []).isForUser = false ∧
    Battler.isSelectable smallEnv shieldedActor (strike shieldedEnemy 1 []) = true ∧
    Battler.isSelectable smallEnv shieldedEnemy (strike shieldedActor 1 []) = true ∧
    Game_Actors.isSelectable smallEnv shieldedActor shieldedActorEntry blankEntry []
      (strike shieldedEnemy 1 []) = false := by
  decide

/-- C6. The element `Fire` is registered with id 2 in `ElementIdRef`, the action deals
damage of element 2 and does not target the user, and `checkActionSelectable` still
returns true for the line `Element Fire`: the name is looked up in `STypeIdRef`. With the
id written out, `Element 2`, the same action is refused. -/
theorem checkActionSelectable_element_name :
    smallEnv.elementIdRef.get "FIRE".toList = some 2 ∧
    (strike shieldedActor 2 []).item.elementId = 2 ∧
    checkActionSelectable smallEnv shieldedEnemy "Element Fire".toList
      (strike shieldedActor 2 []) = true ∧
    checkActionSelectable smallEnv shieldedEnemy "Element 2".toList
      (strike shieldedActor 2 []) = false := by
  decide

/-! ## Characters and literals -/

theorem toNat_ofNat_of_lt (n : Nat) (h : n < 55296) : (Char.ofNat n).toNat = n := by
  have hv : n.isValidChar := Or.inl h
  rw [Char.ofNat, dif_pos hv]
  simp [Char.ofNatAux, Char.toNat, UInt32.toNat]

theorem toNat_toUpper (c : Char) :
    c.toUpper.toNat = if 97 ≤ c.toNat ∧ c.toNat ≤ 122 then c.toNat - 32 else c.toNat := by
  unfold Char.toUpper
  simp only [ge_iff_le]
  split
  · rw [toNat_ofNat_of_lt _ (by omega)]
  · rfl

theorem toNat_injective {c d : Char} (h : c.toNat = d.toNat) : c = d := by
  rw [← Char.ofNat_toNat c, ← Char.ofNat_toNat d, h]

theorem isDigit_iff (c : Char) : isDigit c = true ↔ 48 ≤ c.toNat ∧ c.toNat ≤ 57 := by
  simp [isDigit]

theorem toUpper_of_isDigit {c : Char} (h : isDigit c = true) : c.toUpper = c := by
  rw [isDigit_iff] at h
  apply toNat_injective
  rw [toNat_toUpper, if_neg (by omega)]

theorem toNat_digitChar {d : Nat} (h : d < 10) : (digitChar d).toNat = 48 + d := by
  unfold digitChar
  exact toNat_ofNat_of_lt _ (by omega)

theorem isDigit_digitChar {d : Nat} (h : d < 10) : isDigit (digitChar d) = true := by
  rw [isDigit_iff, toNat_digitChar h]
  omega

theorem parseInt_append (xs ys : Str) :
    parseInt (xs ++ ys) = ys.foldl (fun n c => 10 * n + (c.toNat - 48)) (parseInt xs) := by
  simp [parseInt, List.foldl_append]

/-- The numeral `decimalAux` writes: non-empty, made of digits, and read back by
`parseInt`. -/
theorem decimalAux_spec (fuel n : Nat) (acc : Str) (h : n < fuel) :
    ∃ ds : Str, decimalAux fuel n acc = ds ++ acc ∧ ds ≠ [] ∧
      (∀ c ∈ ds, isDigit c = true) ∧ parseInt ds = n := by
  induction fuel generalizing n acc with
  | zero => omega
  | succ fuel ih =>
    unfold decimalAux
    by_cases hn : n < 10
    · refine ⟨[digitChar n], by simp [hn], by simp, ?_, ?_⟩
      · intro c hc
        rw [List.mem_singleton] at hc
        rw [hc]
        exact isDigit_digitChar hn
      · simp [parseInt, toNat_digitChar hn]
    · obtain ⟨ds, h1, _, h3, h4⟩ := ih (n / 10) (digitChar (n % 10) :: acc) (by omega)
      have hm : n % 10 < 10 := Nat.mod_lt _ (by omega)
      refine ⟨ds ++ [digitChar (n % 10)], by simp [hn, h1], by simp, ?_, ?_⟩
      · intro c hc
        rw [List.mem_append, List.mem_singleton] at hc
        rcases hc with hc | hc
        · exact h3 c hc
        · rw [hc]
          exact isDigit_digitChar hm
      · rw [parseInt_append, h4]
        simp only [List.foldl_cons, List.foldl_nil, toNat_digitChar hm]
        omega

theorem decimal_spec (n : Nat) :
    decimal n ≠ [] ∧ (∀ c ∈ decimal n, isDigit c = true) ∧ parseInt (decimal n) = n := by
  obtain ⟨ds, h1, h2, h3, h4⟩ := decimalAux_spec (n + 1) n [] (by omega)
  rw [List.append_nil] at h1
  unfold decimal
  rw [h1]
  exact ⟨h2, h3, h4⟩

theorem litCI_isSome_head {p : Char} {ps s : Str} (h : (litCI (p :: ps) s).isSome = true) :
    ∃ c ∈ s, c.toUpper = p.toUpper := by
  cases s with
  | nil => simp [litCI] at h
  | cons c cs =>
    by_cases hc : c.toUpper = p.toUpper
    · exact ⟨c, List.mem_cons_self _ _, hc⟩
    · simp [litCI, hc] at h

/-- A literal that occurs in a line starts with a character of the line. -/
theorem testCI_head_mem {p : Char} {ps s : Str} (h : testCI (p :: ps) s = true) :
    ∃ c ∈ s, c.toUpper = p.toUpper := by
  induction s with
  | nil =>
    simp [testCI, litCI] at h
  | cons c cs ih =>
    unfold testCI at h
    rw [Bool.or_eq_true] at h
    rcases h with h | h
    · exact litCI_isSome_head h
    · obtain ⟨d, hd, hd2⟩ := ih h
      exact ⟨d, List.mem_cons_of_mem _ hd, hd2⟩

theorem takeWhile_append_stop {p : Char → Bool} (ds : Str) (x : Char) (r : Str)
    (hds : ∀ c ∈ ds, p c = true) (hx : p x = false) :
    (ds ++ x :: r).takeWhile p = ds ∧ (ds ++ x :: r).dropWhile p = x :: r := by
  induction ds with
  | nil => simp [List.takeWhile, List.dropWhile, hx]
  | cons d ds ih =>
    have hd := hds d (List.mem_cons_self _ _)
    have := ih fun c hc => hds c (List.mem_cons_of_mem _ hc)
    simp [List.takeWhile, List.dropWhile, hd, this]

theorem captureNum_rowOnlyLine (x : Nat) :
    captureNum "ROW ".toList " ONLY".toList (rowOnlyLine x) = some (decimal x) := by
  obtain ⟨h1, h2, _⟩ := decimal_spec x
  have hsp : isDigit ' ' = false := by decide
  obtain ⟨ht, hd⟩ := takeWhile_append_stop (decimal x) ' ' "Only".toList h2 hsp
  have hlit : litCI "ROW ".toList (rowOnlyLine x) = some (decimal x ++ ' ' :: "Only".toList) := by
    simp [rowOnlyLine, litCI]
  have hnum : numAt "ROW ".toList " ONLY".toList (rowOnlyLine x) = some (decimal x) := by
    unfold numAt
    rw [hlit]
    simp only [ht, hd]
    have : (decimal x).isEmpty = false := by
      cases hx : decimal x with
      | nil => exact absurd hx h1
      | cons _ _ => rfl
    simp [this, litCI]
  have hshape : rowOnlyLine x = 'R' :: ("ow ".toList ++ decimal x ++ " Only".toList) := by
    simp [rowOnlyLine]
  rw [hshape] at hnum ⊢
  unfold captureNum
  rw [hnum]

theorem rowOnlyLine_chars (x : Nat) (c : Char) (hc : c ∈ rowOnlyLine x) :
    c.toUpper ≠ 'B' ∧ c.toUpper ≠ 'F' := by
  obtain ⟨_, h2, _⟩ := decimal_spec x
  simp only [rowOnlyLine, List.mem_append] at hc
  rcases hc with (hc | hc) | hc
  · simp at hc
    rcases hc with rfl | rfl | rfl | rfl <;> decide
  · have hd := h2 c hc
    rw [toUpper_of_isDigit hd]
    rw [isDigit_iff] at hd
    constructor <;> intro h <;> rw [h] at hd <;> revert hd <;> decide
  · simp at hc
    rcases hc with rfl | rfl | rfl | rfl | rfl <;> decide

theorem rowOnlyLine_not_backFront (x : Nat) :
    testCI "BACK ROW ONLY".toList (rowOnlyLine x) = false ∧
    testCI "FRONT ROW ONLY".toList (rowOnlyLine x) = false := by
  constructor
  · rw [Bool.eq_false_iff]
    intro h
    obtain ⟨c, hc, hcu⟩ := testCI_head_mem h
    exact (rowOnlyLine_chars x c hc).1 hcu
  · rw [Bool.eq_false_iff]
    intro h
    obtain ⟨c, hc, hcu⟩ := testCI_head_mem h
    exact (rowOnlyLine_chars x c hc).2 hcu

theorem rowOnlyLine_ne_nil (x : Nat) : rowOnlyLine x ≠ [] := by
  simp [rowOnlyLine]

/-- The line `Row x Only` reaches `selectConditionSpecificRow` with the row `x`. -/
theorem meetSelectionCondition_rowOnlyLine (env : Env) (action : Action) (x : Nat)
    (user target : Battler) :
    meetSelectionCondition env action (rowOnlyLine x) user target =
      selectConditionSpecificRow env action target x := by
  unfold meetSelectionCondition
  rw [(rowOnlyLine_not_backFront x).1, (rowOnlyLine_not_backFront x).2,
    captureNum_rowOnlyLine]
  simp [(decimal_spec x).2.2]

/-! ## Rows -/

/-- C7, as stated: not every target outside row `x` fails `Row x Only`. An actor in row 1
meets `Row 2 Only` when the subject of the action is an actor too. -/
theorem rowOnly_same_side_met :
    ¬ ∀ (env : Env) (action : Action) (x : Nat) (user target : Battler),
        env.rowFormation = true → target.row ≠ x →
        meetSelectionCondition env action (rowOnlyLine x) user target = false := by
  intro h
  have h1 := h smallEnv (strike backActor 1 []) 2 backActor shieldedActor rfl (by decide)
  have h2 : meetSelectionCondition smallEnv (strike backActor 1 []) (rowOnlyLine 2)
      backActor shieldedActor = true := by decide
  rw [h2] at h1
  exact Bool.noConfusion h1

/-- C7, amended. With YEP_RowFormation imported, a target on the side opposing the
action's subject whose row is not `x` does not meet `Row x Only`, and
`checkAllSelectionConditions` refuses it for every item that has this condition. -/
theorem rowOnly_excludes_opposing (env : Env) (action : Action) (x : Nat)
    (user target : Battler) (hrf : env.rowFormation = true)
    (hside : target.isActor ≠ action.subject.isActor) (hrow : target.row ≠ x) :
    meetSelectionCondition env action (rowOnlyLine x) user target = false ∧
    (rowOnlyLine x ∈ action.item.selectConditions →
      checkAllSelectionConditions env action user target = false) := by
  have hmeet : meetSelectionCondition env action (rowOnlyLine x) user target = false := by
    rw [meetSelectionCondition_rowOnlyLine]
    unfold selectConditionSpecificRow
    simp [hrf, hside, hrow]
  refine ⟨hmeet, fun hmem => ?_⟩
  rw [Bool.eq_false_iff]
  intro hall
  have := ((checkAll_eq_true_iff env action user target).1 hall).2.1
    (rowOnlyLine x) hmem (rowOnlyLine_ne_nil x)
  rw [hmeet] at this
  exact Bool.noConfusion this

theorem rowOnly_excludes_opposing_witness :
    meetSelectionCondition smallEnv (strike shieldedEnemy 1 [rowOnlyLine 2]) (rowOnlyLine 2)
      shieldedEnemy shieldedActor = false ∧
    (rowOnlyLine 2 ∈ (strike shieldedEnemy 1 [rowOnlyLine 2]).item.selectConditions →
      checkAllSelectionConditions smallEnv (strike shieldedEnemy 1 [rowOnlyLine 2])
        shieldedEnemy shieldedActor = false) :=
  rowOnly_excludes_opposing smallEnv (strike shieldedEnemy 1 [rowOnlyLine 2]) 2
    shieldedEnemy shieldedActor rfl (by decide) (by decide)

/-! ## States -/

theorem contains_eq_true_iff (l : List Nat) (a : Nat) : l.contains a = true ↔ a ∈ l := by
  simp

/-- The loop of `selectConditionFrontRow` from row `i` over `k` rows: it answers for the
first row with a living member, and is true when there is none. -/
theorem frontRowLoop_eq_true_iff (env : Env) (unit : Bool) (target : Battler) (k i : Nat) :
    frontRowLoop env unit target i k = true ↔
      (∃ r, i ≤ r ∧ r < i + k ∧ 0 < env.rowAliveSize unit r ∧
        (∀ j, i ≤ j → j < r → env.rowAliveSize unit j = 0) ∧
        target.ident ∈ env.rowMembers unit r) ∨
      (∀ j, i ≤ j → j < i + k → env.rowAliveSize unit j = 0) := by
  induction k generalizing i with
  | zero =>
    simp only [frontRowLoop, true_iff]
    right
    intro j h1 h2
    omega
  | succ k ih =>
    unfold frontRowLoop
    by_cases h0 : env.rowAliveSize unit i ≤ 0
    · rw [if_pos h0, ih]
      have hz : env.rowAliveSize unit i = 0 := by omega
      constructor
      · rintro (⟨r, h1, h2, h3, h4, h5⟩ | h)
        · left
          refine ⟨r, by omega, by omega, h3, ?_, h5⟩
          intro j hj1 hj2
          by_cases hji : j = i
          · rw [hji]
            exact hz
          · exact h4 j (by omega) hj2
        · right
          intro j hj1 hj2
          by_cases hji : j = i
          · rw [hji]
            exact hz
          · exact h j (by omega) (by omega)
      · rintro (⟨r, h1, h2, h3, h4, h5⟩ | h)
        · left
          have hri : r ≠ i := by
            intro hri
            rw [hri] at h3
            omega
          exact ⟨r, by omega, by omega, h3, fun j hj1 hj2 => h4 j (by omega) hj2, h5⟩
        · right
          exact fun j hj1 hj2 => h j (by omega) (by omega)
    · rw [if_neg h0]
      have hpos : 0 < env.rowAliveSize unit i := by omega
      rw [contains_eq_true_iff]
      constructor
      · intro hm
        left
        exact ⟨i, le_refl _, by omega, hpos, fun j hj1 hj2 => by omega, hm⟩
      · rintro (⟨r, h1, h2, h3, h4, h5⟩ | h)
        · by_cases hri : r = i
          · rw [hri] at h5
            exact h5
          · have := h4 i (le_refl _) (by omega)
            omega
        · have := h i (le_refl _) (by omega)
          omega

/-- C8. With YEP_RowFormation imported and the target on the side opposing the action's
subject, `selectConditionFrontRow(target)` is true exactly when the target is a member of
the lowest-numbered row among 1..RowMaximum that has living members, or no such row has
living members. -/
theorem selectConditionFrontRow_iff (env : Env) (action : Action) (target : Battler)
    (hrf : env.rowFormation = true) (hside : target.isActor ≠ action.subject.isActor) :
    selectConditionFrontRow env action target = true ↔
      (∃ r, 1 ≤ r ∧ r ≤ env.rowMaximum ∧ 0 < env.rowAliveSize target.isActor r ∧
        (∀ j, 1 ≤ j → j < r → env.rowAliveSize target.isActor j = 0) ∧
        target.ident ∈ env.rowMembers target.isActor r) ∨
      (∀ j, 1 ≤ j → j ≤ env.rowMaximum → env.rowAliveSize target.isActor j = 0) := by
  unfold selectConditionFrontRow
  have hs : (target.isActor == action.subject.isActor) = false := by
    rw [beq_eq_false_iff_ne]
    exact hside
  rw [hrf, hs]
  simp only [Bool.not_true, Bool.false_eq_true, if_false]
  rw [frontRowLoop_eq_true_iff]
  constructor
  · rintro (⟨r, h1, h2, h3, h4, h5⟩ | h)
    · exact Or.inl ⟨r, h1, by omega, h3, h4, h5⟩
    · exact Or.inr fun j hj1 hj2 => h j hj1 (by omega)
  · rintro (⟨r, h1, h2, h3, h4, h5⟩ | h)
    · exact Or.inl ⟨r, h1, by omega, h3, h4, h5⟩
    · exact Or.inr fun j hj1 hj2 => h j hj1 (by omega)

theorem selectConditionFrontRow_iff_witness :
    selectConditionFrontRow rowsEnv (strike shieldedActor 1 []) shieldedEnemy = true ↔
      (∃ r, 1 ≤ r ∧ r ≤ rowsEnv.rowMaximum ∧ 0 < rowsEnv.rowAliveSize shieldedEnemy.isActor r ∧
        (∀ j, 1 ≤ j → j < r → rowsEnv.rowAliveSize shieldedEnemy.isActor j = 0) ∧
        shieldedEnemy.ident ∈ rowsEnv.rowMembers shieldedEnemy.isActor r) ∨
      (∀ j, 1 ≤ j → j ≤ rowsEnv.rowMaximum →
        rowsEnv.rowAliveSize shieldedEnemy.isActor j = 0) :=
  selectConditionFrontRow_iff rowsEnv (strike shieldedActor 1 []) shieldedEnemy rfl
    (by decide)

/-! ## The block of select conditions -/

theorem noteStep_of_not_open {st : NoteState} {line : Str} (h : isOpenTag line = false)
    (hm : st.evalMode ≠ .selectConditions) :
    (noteStep st line).evalMode ≠ .selectConditions ∧
    (noteStep st line).selectConditions = st.selectConditions ∧
    (noteStep st line).changed = st.changed := by
  unfold noteStep
  rw [h]
  simp only [Bool.false_eq_true, if_false, if_neg hm]
  split
  · simp
  · split
    · simp
    · split
      · simp
      · split
        · exact ⟨hm, rfl, rfl⟩
        · exact ⟨hm, rfl, rfl⟩

/-- Outside a block, lines without the opening tag leave the conditions as they are. -/
theorem foldl_noteStep_outside (lines : List Str) (st : NoteState)
    (h : ∀ l ∈ lines, isOpenTag l = false) (hm : st.evalMode ≠ .selectConditions) :
    (lines.foldl noteStep st).selectConditions = st.selectConditions ∧
    (lines.foldl noteStep st).changed = st.changed := by
  induction lines generalizing st with
  | nil => exact ⟨rfl, rfl⟩
  | cons l rest ih =>
    obtain ⟨h1, h2, h3⟩ := noteStep_of_not_open (h l (List.mem_cons_self _ _)) hm
    obtain ⟨h4, h5⟩ := ih (noteStep st l) (fun x hx => h x (List.mem_cons_of_mem _ hx)) h1
    rw [List.foldl_cons, h4, h5, h2, h3]
    exact ⟨rfl, rfl⟩

/-- Inside a block, every line is trimmed and added to the conditions. -/
theorem foldl_noteStep_inside (lines : List Str) (st : NoteState)
    (h : ∀ l ∈ lines, isOpenTag l = false ∧ isCloseTag l = false)
    (hm : st.evalMode = .selectConditions) :
    (lines.foldl noteStep st).selectConditions = st.selectConditions ++ lines.map trim ∧
    (lines.foldl noteStep st).changed = st.changed ∧
    (lines.foldl noteStep st).evalMode = .selectConditions := by
  induction lines generalizing st with
  | nil => simp [hm]
  | cons l rest ih =>
    obtain ⟨ho, hc⟩ := h l (List.mem_cons_self _ _)
    have hstep : noteStep st l =
        { st with selectConditions := st.selectConditions ++ [trim l] } := by
      unfold noteStep
      simp [ho, hc, hm]
    obtain ⟨h4, h5, h6⟩ := ih (noteStep st l)
      (fun x hx => h x (List.mem_cons_of_mem _ hx)) (by rw [hstep]; exact hm)
    rw [List.foldl_cons, h4, h5, h6, hstep]
    simp

theorem foldl_optionStep_none (lines : List Str) (st : OptionState)
    (h : ∀ l ∈ lines, isOptionTag l = false) : lines.foldl optionStep st = st := by
  induction lines generalizing st with
  | nil => rfl
  | cons l rest ih =>
    have hl := h l (List.mem_cons_self _ _)
    simp only [isOptionTag, Bool.or_eq_false_iff] at hl
    obtain ⟨⟨⟨h1, h2⟩, h3⟩, h4⟩ := hl
    have hstep : optionStep st l = st := by
      unfold optionStep
      rw [h1, h2, h3, h4]
      rfl
    rw [List.foldl_cons, hstep]
    exact ih st fun x hx => h x (List.mem_cons_of_mem _ hx)

theorem removeAoeEffects_selectConditions (obj : Item) :
    (removeAoeEffects obj).selectConditions = obj.selectConditions := by
  unfold removeAoeEffects
  split <;> rfl

/-- C9. A note whose lines hold a block, the opening tag on one line and the closing tag
on a later one, no opening tag after it, and none of the four option notetags: after
`processSelectNotetags1` the conditions of the object are the trimmed lines between the
two tags, in order, whatever the plugin parameters and whether the object is a skill or
an item. -/
theorem processSelectNotetags1_block (par : Params) (isSkill : Bool) (obj : Item)
    (before inside after : List Str) (opening closing : Str)
    (hnote : splitLines obj.note = before ++ opening :: (inside ++ closing :: after))
    (hopen : isOpenTag opening = true)
    (hclose : isCloseTag closing = true ∧ isOpenTag closing = false)
    (hinside : ∀ l ∈ inside, isOpenTag l = false ∧ isCloseTag l = false)
    (hafter : ∀ l ∈ after, isOpenTag l = false)
    (hoption : ∀ l ∈ splitLines obj.note, isOptionTag l = false) :
    (processSelectNotetags1 par isSkill obj).selectConditions = inside.map trim := by
  unfold processSelectNotetags1
  simp only [removeAoeEffects_selectConditions]
  rw [foldl_optionStep_none _ _ hoption]
  simp only
  rw [hnote, List.foldl_append, List.foldl_cons, List.foldl_append, List.foldl_cons]
  generalize List.foldl noteStep
    { selectConditions := [], changed := false, evalMode := EvalMode.none,
      selectConditionEval := [] } before = st0
  have hstepOpen : noteStep st0 opening =
      { st0 with evalMode := .selectConditions, selectConditions := [], changed := true } := by
    unfold noteStep
    simp [hopen]
  obtain ⟨hi1, hi2, hi3⟩ := foldl_noteStep_inside inside (noteStep st0 opening) hinside
    (by rw [hstepOpen])
  have hstepClose : noteStep (List.foldl noteStep (noteStep st0 opening) inside) closing =
      { List.foldl noteStep (noteStep st0 opening) inside with evalMode := .none } := by
    unfold noteStep
    simp [hclose.1, hclose.2]
  obtain ⟨ha1, ha2⟩ := foldl_noteStep_outside after
    (noteStep (List.foldl noteStep (noteStep st0 opening) inside) closing) hafter
    (by rw [hstepClose]; simp)
  have hsel : (List.foldl noteStep
      (noteStep (List.foldl noteStep (noteStep st0 opening) inside) closing)
      after).selectConditions = inside.map trim := by
    rw [ha1, hstepClose]
    show (List.foldl noteStep (noteStep st0 opening) inside).selectConditions = _
    rw [hi1, hstepOpen]
    rfl
  have hch : (List.foldl noteStep
      (noteStep (List.foldl noteStep (noteStep st0 opening) inside) closing)
      after).changed = true := by
    rw [ha2, hstepClose]
    show (List.foldl noteStep (noteStep st0 opening) inside).changed = _
    rw [hi2, hstepOpen]
  rw [hsel, hch]
  rfl

theorem processSelectNotetags1_block_witness :
    (processSelectNotetags1 defaultParams true notedSkill).selectConditions =
      ["  Row 1 Only ".toList, "State: Guard".toList].map trim :=
  processSelectNotetags1_block defaultParams true notedSkill ["Deals damage.".toList]
    ["  Row 1 Only ".toList, "State: Guard".toList] ["End".toList]
    "<Select Conditions>".toList "</Select Conditions>".toList
    (by decide) (by decide) (by decide) (by decide) (by decide) (by decide)

/-! ## Dispersed damage -/

theorem mathRound_near (x : ℚ) : |((mathRound x : ℤ) : ℚ) - x| ≤ 1 / 2 := by
  unfold mathRound
  have h1 := Int.floor_le (x + 1 / 2)
  have h2 := Int.lt_floor_add_one (x + 1 / 2)
  rw [abs_le]
  constructor <;> linarith

theorem apply_keeps_mod (item : Option Item) (st : ActionState) (op : ActionOp)
    (hop : ∀ fe s, op = ActionOp.setTargetText fe s → notGroupTarget s)
    (hst : notGroupTarget st.selectedTargetType ∧ st.selectedDmgMod = 1) :
    notGroupTarget (op.apply item st).selectedTargetType ∧
      (op.apply item st).selectedDmgMod = 1 := by
  cases op with
  | setTargetIndex i => exact hst
  | setTargetText fe s =>
    have hs := hop fe s rfl
    simp only [ActionOp.apply, setTargetText, chooseSelectionUnit]
    split
    · split <;> exact hst
    · split
      · split <;> exact hst
      · exact ⟨hs, hst.2⟩
  | makeTargetChoices o f h =>
    simp only [ActionOp.apply, makeTargetChoices]
    rw [if_neg hst.1.1, if_neg hst.1.2]
    exact hst
  | bypassForceSelectedUnit v => exact hst

theorem runOps_keeps_mod (item : Option Item) (ops : List ActionOp) (st : ActionState)
    (hops : ∀ fe s, ActionOp.setTargetText fe s ∈ ops → notGroupTarget s)
    (hst : notGroupTarget st.selectedTargetType ∧ st.selectedDmgMod = 1) :
    (runOps item st ops).selectedDmgMod = 1 := by
  induction ops generalizing st with
  | nil => exact hst.2
  | cons op rest ih =>
    unfold runOps
    rw [List.foldl_cons]
    apply ih
    · intro fe s hs
      exact hops fe s (List.mem_cons_of_mem _ hs)
    · apply apply_keeps_mod item st op _ hst
      intro fe s hs
      exact hops fe s (by rw [hs]; exact List.mem_cons_self _ _)

/-- C10. For an action with the condition `DISPERSE DAMAGE SELECT` whose selected target
type is `ALL ENEMIES` (or `ALL ALLIES`) and whose unit returns `n >= 1` living members,
`makeTargetChoices` sets the damage modifier to `1 / n`, and `makeDamageValue` then
returns the original value times `1 / n` rounded, an integer within one half of the
`n`-th part of the original value. For an action whose target type was never set to one
of the two strings since `clear`, `makeDamageValue` returns the rounded original value. -/
theorem makeDamageValue_dispersed (item : Option Item) (st : ActionState)
    (opponents friends host : List Battler) (value : ℚ) :
    (isDisperseDamage item = true → st.selectedTargetType = "ALL ENEMIES".toList →
      1 ≤ opponents.length →
      (makeTargetChoices st item opponents friends host).2.selectedDmgMod =
        1 / (opponents.length : ℚ) ∧
      makeDamageValue (makeTargetChoices st item opponents friends host).2 value =
        mathRound (value * (1 / (opponents.length : ℚ))) ∧
      |((makeDamageValue (makeTargetChoices st item opponents friends host).2 value : ℤ) : ℚ)
        - value / (opponents.length : ℚ)| ≤ 1 / 2) ∧
    (isDisperseDamage item = true → st.selectedTargetType = "ALL ALLIES".toList →
      1 ≤ friends.length →
      (makeTargetChoices st item opponents friends host).2.selectedDmgMod =
        1 / (friends.length : ℚ) ∧
      makeDamageValue (makeTargetChoices st item opponents friends host).2 value =
        mathRound (value * (1 / (friends.length : ℚ))) ∧
      |((makeDamageValue (makeTargetChoices st item opponents friends host).2 value : ℤ) : ℚ)
        - value / (friends.length : ℚ)| ≤ 1 / 2) ∧
    (∀ ops : List ActionOp,
      (∀ fe s, ActionOp.setTargetText fe s ∈ ops →
        s ≠ "ALL ENEMIES".toList ∧ s ≠ "ALL ALLIES".toList) →
      makeDamageValue (runOps item clear ops) value = mathRound value) := by
  refine ⟨?_, ?_, ?_⟩
  · intro hd ht hn
    have hmod : (makeTargetChoices st item opponents friends host).2.selectedDmgMod =
        1 / (opponents.length : ℚ) := by
      unfold makeTargetChoices
      rw [if_pos ht, if_pos hd, max_eq_right hn]
    refine ⟨hmod, ?_, ?_⟩
    · unfold makeDamageValue
      rw [hmod]
    · unfold makeDamageValue
      rw [hmod]
      have := mathRound_near (value * (1 / (opponents.length : ℚ)))
      rw [mul_one_div] at this
      rw [mul_one_div]
      exact this
  · intro hd ht hn
    have hne : st.selectedTargetType ≠ "ALL ENEMIES".toList := by
      rw [ht]
      decide
    have hmod : (makeTargetChoices st item opponents friends host).2.selectedDmgMod =
        1 / (friends.length : ℚ) := by
      unfold makeTargetChoices
      rw [if_neg hne, if_pos ht, if_pos hd, max_eq_right hn]
    refine ⟨hmod, ?_, ?_⟩
    · unfold makeDamageValue
      rw [hmod]
    · unfold makeDamageValue
      rw [hmod]
      have := mathRound_near (value * (1 / (friends.length : ℚ)))
      rw [mul_one_div] at this
      rw [mul_one_div]
      exact this
  · intro ops hops
    unfold makeDamageValue
    rw [runOps_keeps_mod item ops clear hops ⟨⟨by decide, by decide⟩, rfl⟩, mul_one]

theorem makeDamageValue_dispersed_witness :
    ((makeTargetChoices allEnemiesState (some dispersedSkill)
        [shieldedEnemy, ragingEnemy] [] []).2.selectedDmgMod = 1 / ((2 : ℕ) : ℚ) ∧
      makeDamageValue (makeTargetChoices allEnemiesState (some dispersedSkill)
        [shieldedEnemy, ragingEnemy] [] []).2 75 = mathRound (75 * (1 / ((2 : ℕ) : ℚ))) ∧
      |((makeDamageValue (makeTargetChoices allEnemiesState (some dispersedSkill)
        [shieldedEnemy, ragingEnemy] [] []).2 75 : ℤ) : ℚ) - 75 / ((2 : ℕ) : ℚ)| ≤ 1 / 2) ∧
    makeDamageValue (runOps (some dispersedSkill) clear
      [ActionOp.setTargetIndex 0, ActionOp.makeTargetChoices [shieldedEnemy] [] []]) 75 =
        mathRound 75 :=
  ⟨(makeDamageValue_dispersed (some dispersedSkill) allEnemiesState
      [shieldedEnemy, ragingEnemy] [] [] 75).1 (by decide) (by decide) (by decide),
    (makeDamageValue_dispersed (some dispersedSkill) allEnemiesState
      [shieldedEnemy, ragingEnemy] [] [] 75).2.2
      [ActionOp.setTargetIndex 0, ActionOp.makeTargetChoices [shieldedEnemy] [] []]
      (by simp)⟩

end SelectionControl

namespace QuasiSight

/-! ## Shadow casting -/

section CastProofs

variable {α : Type} [LinearOrderedField α]

theorem radianOf_eq_baseAngle (T : Trig α) (cx cy : α) (p : Point α) :
    radianOf T cx cy p = baseAngle T cx cy p := by
  unfold radianOf baseAngle
  split <;> simp

theorem baseAngle_range (T : Trig α) (cx cy : α) (p : Point α) (hpi : 0 < T.pi)
    (hatan : ∀ y x, -T.pi < T.atan2 y x ∧ T.atan2 y x ≤ T.pi) :
    0 ≤ baseAngle T cx cy p ∧ baseAngle T cx cy p < 2 * T.pi := by
  obtain ⟨h1, h2⟩ := hatan (cy - p.y) (p.x - cx)
  unfold baseAngle
  split
  · constructor <;> linarith
  · constructor <;> linarith

theorem foldl_collectStep (T : Trig α) (cx cy : α) (vs : List (Point α))
    (m : RadianMap α) (rs : List α) :
    vs.foldl (collectStep T cx cy) (m, rs) =
      ((vs.map fun p => (baseAngle T cx cy p, p)).reverse ++ m,
        rs ++ vs.map (baseAngle T cx cy)) := by
  induction vs generalizing m rs with
  | nil => simp
  | cons v vs ih =>
    have hstep : collectStep T cx cy (m, rs) v =
        ((radianOf T cx cy v, v) :: m, rs ++ [radianOf T cx cy v]) := rfl
    rw [List.foldl_cons, hstep, ih]
    simp [radianOf_eq_baseAngle]

theorem lookup_some_mem {k : α} {p : Point α} {m : RadianMap α}
    (h : List.lookup k m = some p) : (k, p) ∈ m := by
  induction m with
  | nil => simp at h
  | cons e es ih =>
    obtain ⟨a, b⟩ := e
    rw [List.lookup_cons] at h
    by_cases hk : k = a
    · subst hk
      simp only [beq_self_eq_true, Option.some.injEq] at h
      rw [h]
      exact List.mem_cons_self _ _
    · have hb : (k == a) = false := by
        rw [beq_eq_false_iff_ne]
        exact hk
      rw [hb] at h
      exact List.mem_cons_of_mem _ (ih h)

theorem lookup_of_key {k : α} {m : RadianMap α} (h : ∃ p, (k, p) ∈ m) :
    ∃ q, List.lookup k m = some q := by
  induction m with
  | nil =>
    obtain ⟨p, hp⟩ := h
    simp at hp
  | cons e es ih =>
    obtain ⟨a, b⟩ := e
    rw [List.lookup_cons]
    by_cases hk : k = a
    · subst hk
      exact ⟨b, by simp⟩
    · have hb : (k == a) = false := by
        rw [beq_eq_false_iff_ne]
        exact hk
      rw [hb]
      apply ih
      obtain ⟨p, hp⟩ := h
      rw [List.mem_cons] at hp
      rcases hp with hp | hp
      · exact absurd (congrArg Prod.fst hp) hk
      · exact ⟨p, hp⟩

/-- The shifting loop: the sound entries stay sound, nothing is removed, the angles come
out shifted, and every shifted angle is a key. -/
theorem foldl_shiftStep (T : Trig α) (cx cy : α) (vs : List (Point α)) (hpi : 0 < T.pi)
    (hatan : ∀ y x, -T.pi < T.atan2 y x ∧ T.atan2 y x ≤ T.pi)
    (rs : List α) (m : RadianMap α) (out : List α)
    (hm : ∀ e ∈ m, EntryOk T cx cy vs e) (hk : ∀ r ∈ rs, ∃ p, (r, p) ∈ m) :
    (∀ e ∈ (rs.foldl (shiftStep T) (m, out)).1, EntryOk T cx cy vs e) ∧
    (∀ e ∈ m, e ∈ (rs.foldl (shiftStep T) (m, out)).1) ∧
    (rs.foldl (shiftStep T) (m, out)).2 = out ++ rs.map (shiftValue T) ∧
    (∀ r ∈ rs, ∃ p, (shiftValue T r, p) ∈ (rs.foldl (shiftStep T) (m, out)).1) := by
  induction rs generalizing m out with
  | nil => exact ⟨hm, fun e he => he, by simp, by simp⟩
  | cons r rest ih =>
    rw [List.foldl_cons]
    obtain ⟨old, hold⟩ := lookup_of_key (hk r (List.mem_cons_self _ _))
    by_cases hr : r > T.pi
    · have hstep : shiftStep T (m, out) r = ((r - 2 * T.pi, old) :: m, out ++ [r - 2 * T.pi]) := by
        unfold shiftStep
        simp only [hr, if_true, hold]
      rw [hstep]
      have hmem := lookup_some_mem hold
      have hnew : EntryOk T cx cy vs (r - 2 * T.pi, old) := by
        obtain ⟨h1, h2⟩ := hm _ hmem
        refine ⟨h1, Or.inr ?_⟩
        have hrange := baseAngle_range T cx cy old hpi hatan
        rcases h2 with h2 | ⟨h2, _⟩
        · simp only at h2
          rw [← h2]
          exact ⟨rfl, hr⟩
        · simp only at h2
          exfalso
          linarith [hrange.2]
      obtain ⟨i1, i2, i3, i4⟩ := ih ((r - 2 * T.pi, old) :: m) (out ++ [r - 2 * T.pi])
        (by
          intro e he
          rw [List.mem_cons] at he
          rcases he with he | he
          · rw [he]
            exact hnew
          · exact hm e he)
        (by
          intro r' hr'
          obtain ⟨p, hp⟩ := hk r' (List.mem_cons_of_mem _ hr')
          exact ⟨p, List.mem_cons_of_mem _ hp⟩)
      refine ⟨i1, fun e he => i2 e (List.mem_cons_of_mem _ he), ?_, ?_⟩
      · rw [i3]
        simp [shiftValue, hr]
      · intro r' hr'
        rw [List.mem_cons] at hr'
        rcases hr' with hr' | hr'
        · rw [hr']
          refine ⟨old, i2 _ ?_⟩
          simp [shiftValue, hr]
        · exact i4 r' hr'
    · have hstep : shiftStep T (m, out) r = (m, out ++ [r]) := by
        unfold shiftStep
        simp only [hr, if_false]
      rw [hstep]
      obtain ⟨i1, i2, i3, i4⟩ := ih m (out ++ [r]) hm
        (fun r' hr' => hk r' (List.mem_cons_of_mem _ hr'))
      refine ⟨i1, i2, ?_, ?_⟩
      · rw [i3]
        simp [shiftValue, hr]
      · intro r' hr'
        rw [List.mem_cons] at hr'
        rcases hr' with hr' | hr'
        · rw [hr']
          obtain ⟨p, hp⟩ := hk r (List.mem_cons_self _ _)
          refine ⟨p, i2 _ ?_⟩
          simpa [shiftValue, hr] using hp
        · exact i4 r' hr'

theorem pairwise_head {β : Type} {R : β → β → Prop} {l : List β} (h : l.Pairwise R) {a : β}
    (ha : l.head? = some a) : a ∈ l ∧ ∀ x ∈ l, x = a ∨ R a x := by
  cases l with
  | nil => simp at ha
  | cons b t =>
    simp only [List.head?_cons, Option.some.injEq] at ha
    subst ha
    refine ⟨List.mem_cons_self _ _, fun x hx => ?_⟩
    rw [List.mem_cons] at hx
    rcases hx with hx | hx
    · exact Or.inl hx
    · exact Or.inr (List.rel_of_pairwise_cons h hx)

/-- The sorted angles start with the smallest and end with the largest. -/
theorem sortRadians_ends (rs : List α) (hne : rs ≠ []) :
    ∃ mn mx, (sortRadians rs).head? = some mn ∧ (sortRadians rs).getLast? = some mx ∧
      mn ∈ rs ∧ mx ∈ rs ∧ ∀ x ∈ rs, mn ≤ x ∧ x ≤ mx := by
  have hperm : List.Perm (sortRadians rs) rs := List.perm_insertionSort _ rs
  have hsorted : (sortRadians rs).Pairwise (· ≤ ·) := List.sorted_insertionSort _ rs
  have hne2 : sortRadians rs ≠ [] := fun h => hne (by
    have := hperm.length_eq
    rw [h] at this
    exact List.length_eq_zero.mp this.symm)
  obtain ⟨mn, hmn⟩ : ∃ mn, (sortRadians rs).head? = some mn := by
    cases h : sortRadians rs with
    | nil => exact absurd h hne2
    | cons a t => exact ⟨a, rfl⟩
  obtain ⟨mx, hmx⟩ : ∃ mx, (sortRadians rs).getLast? = some mx := by
    rw [← List.head?_reverse]
    cases h : (sortRadians rs).reverse with
    | nil => exact absurd (List.reverse_eq_nil_iff.mp h) hne2
    | cons a t => exact ⟨a, rfl⟩
  have h1 := pairwise_head hsorted hmn
  have hrev : (sortRadians rs).reverse.Pairwise (fun a b => b ≤ a) :=
    List.pairwise_reverse.mpr hsorted
  have h2 := pairwise_head hrev (by rw [List.head?_reverse]; exact hmx)
  refine ⟨mn, mx, hmn, hmx, hperm.mem_iff.mp h1.1,
    hperm.mem_iff.mp (List.mem_reverse.mp h2.1), fun x hx => ⟨?_, ?_⟩⟩
  · rcases h1.2 x (hperm.mem_iff.mpr hx) with h | h
    · exact le_of_eq h.symm
    · exact h
  · rcases h2.2 x (List.mem_reverse.mpr (hperm.mem_iff.mpr hx)) with h | h
    · exact le_of_eq h
    · exact h

end CastProofs

section CastMain

variable {α : Type} [LinearOrderedField α]

theorem sortAngle_of_entry (T : Trig α) (cx cy : α) (vs : List (Point α)) (hpi : 0 < T.pi)
    (hatan : ∀ y x, -T.pi < T.atan2 y x ∧ T.atan2 y x ≤ T.pi)
    (e : α × Point α) (hok : EntryOk T cx cy vs e) (v : Point α)
    (hkey : e.1 = sortAngle T cx cy vs v) : sortAngle T cx cy vs e.2 = e.1 := by
  have hv := baseAngle_range T cx cy v hpi hatan
  have hp := baseAngle_range T cx cy e.2 hpi hatan
  obtain ⟨_, hcase⟩ := hok
  unfold sortAngle at hkey ⊢
  by_cases hw : wideSpread T cx cy vs = true
  · simp only [hw, true_and] at hkey ⊢
    rcases hcase with h | ⟨h1, h2⟩
    · have hle : ¬ baseAngle T cx cy e.2 > T.pi := by
        intro hgt
        split at hkey
        · linarith [hv.2]
        · linarith
      rw [if_neg hle]
      exact h.symm
    · rw [if_pos h2]
      exact h1.symm
  · simp only [hw, false_and, if_false, Bool.false_eq_true] at hkey ⊢
    rcases hcase with h | ⟨h1, h2⟩
    · exact h.symm
    · exfalso
      linarith [hv.1, hp.2]

theorem wideSpread_iff (T : Trig α) (cx cy : α) (vs : List (Point α)) (mn mx : α)
    (hmn : mn ∈ vs.map (baseAngle T cx cy)) (hmx : mx ∈ vs.map (baseAngle T cx cy))
    (hb : ∀ x ∈ vs.map (baseAngle T cx cy), mn ≤ x ∧ x ≤ mx) :
    wideSpread T cx cy vs = true ↔ |mx - mn| > T.pi := by
  have hle : mn ≤ mx := (hb mx hmx).1
  rw [abs_of_nonneg (by linarith)]
  unfold wideSpread
  simp only [List.any_eq_true, decide_eq_true_eq]
  constructor
  · rintro ⟨p, hp, q, hq, h⟩
    have h1 := (hb _ (List.mem_map_of_mem _ hp)).1
    have h2 := (hb _ (List.mem_map_of_mem _ hq)).2
    linarith
  · intro h
    rw [List.mem_map] at hmn hmx
    obtain ⟨p, hp, hp2⟩ := hmn
    obtain ⟨q, hq, hq2⟩ := hmx
    exact ⟨p, hp, q, hq, by rw [hp2, hq2]; exact h⟩

/-- The map and the angles `shadowCast` holds when it picks its two vertices: every entry
is sound, every angle is a key, and the angles are those the vertices are sorted by. -/
theorem shadowCast_prepared (T : Trig α) (cx cy : α) (vs : List (Point α)) (hpi : 0 < T.pi)
    (hatan : ∀ y x, -T.pi < T.atan2 y x ∧ T.atan2 y x ≤ T.pi)
    (mn0 mx0 : α) (hmn : mn0 ∈ vs.map (baseAngle T cx cy))
    (hmx : mx0 ∈ vs.map (baseAngle T cx cy))
    (hb : ∀ x ∈ vs.map (baseAngle T cx cy), mn0 ≤ x ∧ x ≤ mx0) :
    ∃ (M : RadianMap α) (K : List α),
      (if |mx0 - mn0| > T.pi then
          ((List.foldl (shiftStep T) ((vs.map fun p => (baseAngle T cx cy p, p)).reverse, [])
              (sortRadians (vs.map (baseAngle T cx cy)))).1,
            sortRadians (List.foldl (shiftStep T)
              ((vs.map fun p => (baseAngle T cx cy p, p)).reverse, [])
              (sortRadians (vs.map (baseAngle T cx cy)))).2)
        else ((vs.map fun p => (baseAngle T cx cy p, p)).reverse,
          sortRadians (vs.map (baseAngle T cx cy)))) = (M, sortRadians K) ∧
      (∀ e ∈ M, EntryOk T cx cy vs e) ∧
      (∀ a ∈ K, ∃ p, (a, p) ∈ M) ∧
      (∀ a, a ∈ K ↔ ∃ v ∈ vs, sortAngle T cx cy vs v = a) := by
  have hm0 : ∀ e ∈ (vs.map fun p => (baseAngle T cx cy p, p)).reverse,
      EntryOk T cx cy vs e := by
    intro e he
    rw [List.mem_reverse, List.mem_map] at he
    obtain ⟨p, hp, rfl⟩ := he
    exact ⟨hp, Or.inl rfl⟩
  have hk0 : ∀ r ∈ vs.map (baseAngle T cx cy),
      ∃ p, (r, p) ∈ (vs.map fun p => (baseAngle T cx cy p, p)).reverse := by
    intro r hr
    rw [List.mem_map] at hr
    obtain ⟨p, hp, rfl⟩ := hr
    exact ⟨p, List.mem_reverse.mpr (List.mem_map_of_mem _ hp)⟩
  have hperm : List.Perm (sortRadians (vs.map (baseAngle T cx cy)))
      (vs.map (baseAngle T cx cy)) := List.perm_insertionSort _ _
  have hwide := wideSpread_iff T cx cy vs mn0 mx0 hmn hmx hb
  by_cases hw : |mx0 - mn0| > T.pi
  · rw [if_pos hw]
    obtain ⟨i1, _, i3, i4⟩ := foldl_shiftStep T cx cy vs hpi hatan
      (sortRadians (vs.map (baseAngle T cx cy)))
      ((vs.map fun p => (baseAngle T cx cy p, p)).reverse) [] hm0
      (fun r hr => hk0 r (hperm.mem_iff.mp hr))
    refine ⟨_, _, rfl, i1, ?_, ?_⟩
    · intro a ha
      rw [i3, List.nil_append, List.mem_map] at ha
      obtain ⟨r, hr, rfl⟩ := ha
      exact i4 r hr
    · intro a
      rw [i3, List.nil_append, List.mem_map]
      constructor
      · rintro ⟨r, hr, rfl⟩
        obtain ⟨v, hv, rfl⟩ := List.mem_map.mp (hperm.mem_iff.mp hr)
        refine ⟨v, hv, ?_⟩
        unfold sortAngle shiftValue
        simp only [hwide.mpr hw, true_and]
      · rintro ⟨v, hv, rfl⟩
        refine ⟨baseAngle T cx cy v, hperm.mem_iff.mpr (List.mem_map_of_mem _ hv), ?_⟩
        unfold sortAngle shiftValue
        simp only [hwide.mpr hw, true_and]
  · rw [if_neg hw]
    have hnw : ¬ wideSpread T cx cy vs = true := fun h => hw (hwide.mp h)
    refine ⟨_, _, rfl, hm0, hk0, ?_⟩
    intro a
    rw [List.mem_map]
    constructor
    · rintro ⟨v, hv, rfl⟩
      refine ⟨v, hv, ?_⟩
      unfold sortAngle
      simp [hnw]
    · rintro ⟨v, hv, rfl⟩
      refine ⟨v, hv, ?_⟩
      unfold sortAngle
      simp [hnw]

/-- C3. For an object with at least one vertex, and `Math.atan2` with values in
`(-pi, pi]`, `shadowCast` returns four points `[(0,0), Pmax - Pmin, (Pmax - Pmin) +
L (cos amax, -sin amax), L (cos amin, -sin amin)]` anchored at `Pmin`, where `L` is 1.5
times the sight length and `Pmin`, `Pmax` are vertices with the smallest and the largest
angle `amin`, `amax` among the angles the vertices are sorted by: the angle around the
centre in `[0, 2 pi)`, shifted by `-2 pi` if above `pi` when the spread exceeds `pi`. -/
theorem shadowCast_volume (T : Trig α) (cx cy len : α) (vertices : List (Point α))
    (hpi : 0 < T.pi) (hatan : ∀ y x, -T.pi < T.atan2 y x ∧ T.atan2 y x ≤ T.pi)
    (hne : vertices ≠ []) :
    ∃ pmin ∈ vertices, ∃ pmax ∈ vertices,
      (∀ v ∈ vertices, 0 ≤ baseAngle T cx cy v ∧ baseAngle T cx cy v < 2 * T.pi ∧
        sortAngle T cx cy vertices pmin ≤ sortAngle T cx cy vertices v ∧
        sortAngle T cx cy vertices v ≤ sortAngle T cx cy vertices pmax) ∧
      shadowCast T cx cy len vertices =
        some ([⟨0, 0⟩,
               ⟨pmax.x - pmin.x, pmax.y - pmin.y⟩,
               ⟨pmax.x - pmin.x + len * (3 / 2) * T.cos (sortAngle T cx cy vertices pmax),
                pmax.y - pmin.y + len * (3 / 2) * -T.sin (sortAngle T cx cy vertices pmax)⟩,
               ⟨len * (3 / 2) * T.cos (sortAngle T cx cy vertices pmin),
                len * (3 / 2) * -T.sin (sortAngle T cx cy vertices pmin)⟩],
              pmin.x, pmin.y) := by
  have hne0 : vertices.map (baseAngle T cx cy) ≠ [] := by
    intro h
    exact hne (List.map_eq_nil_iff.mp h)
  obtain ⟨mn0, mx0, hh0, hl0, hmn0, hmx0, hb0⟩ := sortRadians_ends _ hne0
  obtain ⟨M, K, hst1, P1, P2, P3⟩ :=
    shadowCast_prepared T cx cy vertices hpi hatan mn0 mx0 hmn0 hmx0 hb0
  have hneK : K ≠ [] := by
    obtain ⟨v, hv⟩ := List.exists_mem_of_ne_nil _ hne
    exact List.ne_nil_of_mem ((P3 _).mpr ⟨v, hv, rfl⟩)
  obtain ⟨mn, mx, hh, hl, hmn, hmx, hb⟩ := sortRadians_ends K hneK
  obtain ⟨pmin, hpmin⟩ := lookup_of_key (P2 mn hmn)
  obtain ⟨pmax, hpmax⟩ := lookup_of_key (P2 mx hmx)
  have emin := P1 _ (lookup_some_mem hpmin)
  have emax := P1 _ (lookup_some_mem hpmax)
  obtain ⟨vmin, _, hvmin⟩ := (P3 mn).mp hmn
  obtain ⟨vmax, _, hvmax⟩ := (P3 mx).mp hmx
  have amin : sortAngle T cx cy vertices pmin = mn :=
    sortAngle_of_entry T cx cy vertices hpi hatan (mn, pmin) emin vmin hvmin.symm
  have amax : sortAngle T cx cy vertices pmax = mx :=
    sortAngle_of_entry T cx cy vertices hpi hatan (mx, pmax) emax vmax hvmax.symm
  refine ⟨pmin, emin.1, pmax, emax.1, ?_, ?_⟩
  · intro v hv
    have hr := baseAngle_range T cx cy v hpi hatan
    have hK := hb _ ((P3 _).mpr ⟨v, hv, rfl⟩)
    rw [amin, amax]
    exact ⟨hr.1, hr.2, hK.1, hK.2⟩
  · unfold shadowCast
    simp only [foldl_collectStep, List.append_nil, List.nil_append, hh0, hl0, hst1, hh, hl,
      hpmax, hpmin, amin, amax]

end CastMain

theorem coarseTrig_range (y x : ℚ) :
    -coarseTrig.pi < coarseTrig.atan2 y x ∧ coarseTrig.atan2 y x ≤ coarseTrig.pi := by
  simp only [coarseTrig]
  split_ifs <;> norm_num

theorem shadowCast_volume_witness :
    ∃ pmin ∈ boxVertices, ∃ pmax ∈ boxVertices,
      (∀ v ∈ boxVertices, 0 ≤ baseAngle coarseTrig 24 24 v ∧
        baseAngle coarseTrig 24 24 v < 2 * coarseTrig.pi ∧
        sortAngle coarseTrig 24 24 boxVertices pmin ≤ sortAngle coarseTrig 24 24 boxVertices v ∧
        sortAngle coarseTrig 24 24 boxVertices v ≤
          sortAngle coarseTrig 24 24 boxVertices pmax) ∧
      shadowCast coarseTrig 24 24 100 boxVertices =
        some ([⟨0, 0⟩,
               ⟨pmax.x - pmin.x, pmax.y - pmin.y⟩,
               ⟨pmax.x - pmin.x +
                  100 * (3 / 2) * coarseTrig.cos (sortAngle coarseTrig 24 24 boxVertices pmax),
                pmax.y - pmin.y +
                  100 * (3 / 2) * -coarseTrig.sin (sortAngle coarseTrig 24 24 boxVertices pmax)⟩,
               ⟨100 * (3 / 2) * coarseTrig.cos (sortAngle coarseTrig 24 24 boxVertices pmin),
                100 * (3 / 2) * -coarseTrig.sin (sortAngle coarseTrig 24 24 boxVertices pmin)⟩],
              pmin.x, pmin.y) :=
  shadowCast_volume coarseTrig 24 24 100 boxVertices (by norm_num [coarseTrig])
    coarseTrig_range (by simp [boxVertices])

/-! ## The cache of a character with sight -/

theorem update_settledGuard_moved :
    update guardHost movedWorld settledGuard = some (settledGuard, some true) := by
  rfl

theorem updates_settledGuard_moved (n : Nat) :
    updates guardHost movedWorld n settledGuard = some settledGuard := by
  induction n with
  | zero => rfl
  | succ n ih =>
    unfold updates
    rw [update_settledGuard_moved]
    exact ih

/-- C4. A character caches event 7 at `(48, 48)` on its first sight check, and with
nothing moving `needsSightUpdate` is false. The event then moves to `(52, 48)`; the next
update runs the sight check, which reshapes the shadow and leaves the cached position as
it was. From then on nothing moves, and after any number of further updates
`needsSightUpdate` is still true. -/
theorem needsSightUpdate_stale_cache :
    update guardHost calmWorld freshGuard = some (settledGuard, some true) ∧
    needsSightUpdate calmWorld settledGuard = some (false, settledGuard) ∧
    update guardHost movedWorld settledGuard = some (settledGuard, some true) ∧
    ∀ n, ∃ c, updates guardHost movedWorld (n + 1) settledGuard = some c ∧
      (needsSightUpdate movedWorld c).map Prod.fst = some true := by
  refine ⟨rfl, rfl, rfl, fun n => ⟨settledGuard, updates_settledGuard_moved _, rfl⟩⟩

end QuasiSight

namespace SelectionControl

/-! ## The table of item names -/

end SelectionControl

namespace ExtMesPack

open SelectionControl

/-! ## Digit grouping -/

end ExtMesPack
